import Mathlib

/-!
Verification of the topic-resolution / theme-merge core of the
`investing_agent` backend (`app/worker.py`, `app/theme_merge.py`,
`app/main.py` merge endpoint, `app/settings.py`).

Shallow embedding conventions:
* The SQLAlchemy store is a record of lists (`Store`); rows are records.
  Insertion order of the lists models insertion order of the tables, and
  `created_at`-descending queries are modelled by searching the reversed list.
* `Session.query(...).one_or_none()` is modelled by `List.find?`; the claims
  about stores quantify over well-formed stores (unique theme ids / canonical
  labels, aliases referencing live themes), on which `find?` agrees with
  `one_or_none` / `one`.
* Python floats are modelled by `ℚ`.  The only float operation of the modelled
  code that is not exact rational arithmetic is the square root inside
  `_cosine_similarity`; every consumer of that value only ever *compares* a
  cosine against a threshold or against another cosine, and those comparisons
  are embedded square-root-free: `dot/(√na·√nb) ≥ t` is decided by comparing
  `dot^2` with `t^2·na·nb` (with the sign analysis done explicitly), which is
  exactly the same real-number predicate.
* The external embedding provider / LLM group suggester (out-of-scope
  collaborators per the spec) are an oracle environment `Env`; a `none` result
  models an exception or an unavailable provider.
* The SQLAlchemy transaction discipline is modelled explicitly for the merge
  endpoint: `execute_theme_merge` only ever calls `flush` (never `commit`), so
  its mutations live in the session's pending state; `merge_themes` in
  `main.py` commits after the call returns, and `get_db` closes the session on
  the way out, which rolls an uncommitted transaction back.  Failures partway
  through the merge are modelled by an injected fault index (`failAt`): the
  fault aborts the step sequence after an arbitrary prefix, and the endpoint
  then publishes nothing.
-/

/-! ## Generic list utilities used by the embedding -/

/-- Replace the first element satisfying `p` by `f` of it (models an in-place
update of the single row returned by `one_or_none`). -/
def updateFirst (p : α → Bool) (f : α → α) : List α → List α
  | [] => []
  | x :: xs => if p x then f x :: xs else x :: updateFirst p f xs

/-- All ordered pairs `(l[i], l[j])` with `i < j`, in the nested-loop order of
the Python `for i ... for j in range(i+1, ...)` idiom. -/
def ordPairs : List α → List (α × α)
  | [] => []
  | x :: xs => xs.map (fun y => (x, y)) ++ ordPairs xs

/-- `chPre small big`: the char list `small` is a prefix of `big`. -/
def chPre : List Char → List Char → Bool
  | [], _ => true
  | _ :: _, [] => false
  | a :: as, b :: bs => a == b && chPre as bs

/-- `chSub small big`: `small` occurs as a contiguous substring of `big`. -/
def chSub (small : List Char) : List Char → Bool
  | [] => small.isEmpty
  | b :: bs => chPre small (b :: bs) || chSub small bs

/-- Models the Python substring test `small in big`. -/
def strIn (small big : String) : Bool :=
  chSub small.toList big.toList

/-! ## Similarity engine (`worker.py`) -/

/-- ASCII lowercasing of one character (`str.lower`; the labels the core
compares are ASCII). -/
def asciiLower (c : Char) : Char :=
  if 65 ≤ c.toNat ∧ c.toNat ≤ 90 then Char.ofNat (c.toNat + 32) else c

/-- The whitespace class of Python `str.split()` (space, tab, newline,
carriage return, vertical tab, form feed). -/
def wsChar (c : Char) : Bool :=
  c == ' ' || c == '\t' || c == '\n' || c == '\r' || c.toNat == 11 || c.toNat == 12

/-- `str.split()`: the maximal whitespace-free words (`acc` is the current
word, reversed). -/
def wordsAux (acc : List Char) : List Char → List (List Char)
  | [] => if acc.isEmpty then [] else [acc.reverse]
  | c :: cs =>
    if wsChar c then
      if acc.isEmpty then wordsAux [] cs else acc.reverse :: wordsAux [] cs
    else wordsAux (c :: acc) cs

/-- `" ".join(words)`. -/
def joinSpace : List (List Char) → List Char
  | [] => []
  | [w] => w
  | w :: ws => w ++ ' ' :: joinSpace ws

/-- `canonicalize_label` (worker.py:66): trim, lowercase, collapse internal
whitespace: `" ".join(label.strip().lower().split())` (splitting already
discards leading/trailing whitespace).  Implemented on the char list so the
definition evaluates inside the kernel. -/
def canonicalize_label (label : String) : String :=
  String.mk (joinSpace (wordsAux [] (label.toList.map asciiLower)))

/-- `_token_set` (worker.py:94): the set of maximal `[a-z0-9]+` runs of the
lowercased label (the source regex is ASCII-alphanumeric). -/
def tokenChar (c : Char) : Bool :=
  (Nat.ble 97 c.toNat && Nat.ble c.toNat 122) || c.isDigit

/-- Split a char list into maximal runs of token characters (`acc` is the
current run, reversed). -/
def tokenRunsAux : List Char → List Char → List String
  | acc, [] => if acc.isEmpty then [] else [String.mk acc.reverse]
  | acc, c :: cs =>
    if tokenChar c then tokenRunsAux (c :: acc) cs
    else if acc.isEmpty then tokenRunsAux [] cs
    else String.mk acc.reverse :: tokenRunsAux [] cs

def tokenRuns (l : List Char) : List String :=
  tokenRunsAux [] l

def _token_set (label : String) : Finset String :=
  (tokenRuns (label.toList.map asciiLower)).toFinset

/-- `_dice_similarity` (worker.py:99): Dice coefficient over token sets. -/
def _dice_similarity (a b : Finset String) : ℚ :=
  if a = ∅ ∧ b = ∅ then 1
  else if a = ∅ ∨ b = ∅ then 0
  else 2 * ((a ∩ b).card : ℚ) / ((a.card : ℚ) + (b.card : ℚ))

/-- Dot product of `_cosine_similarity` (worker.py:82). -/
def vecDot (a b : List ℚ) : ℚ :=
  (List.zipWith (· * ·) a b).sum

/-- Sum of squares: the square of the norm computed at worker.py:83-84. -/
def vecNormSq (a : List ℚ) : ℚ :=
  (a.map (fun x => x * x)).sum

/-- A cosine-similarity value as the guarded code computes it
(`_cosine_similarity`, worker.py:79-87): either the exact rational `0.0`
returned by the guard branches, or the real number `d / √m` (`m > 0`) of the
final `dot / (na * nb)`.  Stored square-root-free so every comparison the
source performs on similarities stays decidable. -/
inductive SimVal where
  | scalar (t : ℚ)
  | ratio (d m : ℚ)
deriving DecidableEq, Repr

/-- The similarity value `_cosine_similarity a b` in square-root-free form. -/
def simOf (a b : List ℚ) : SimVal :=
  if a = [] ∨ b = [] ∨ a.length ≠ b.length then .scalar 0
  else
    let na := vecNormSq a
    let nb := vecNormSq b
    if na = 0 ∨ nb = 0 then .scalar 0
    else .ratio (vecDot a b) (na * nb)

/-- `d / √m > t` for `m > 0`, decided without the square root. -/
def ratioGTscalar (d m t : ℚ) : Bool :=
  if 0 ≤ t then decide (0 ≤ d) && decide (t ^ 2 * m < d ^ 2)
  else decide (0 ≤ d) || decide (d ^ 2 < t ^ 2 * m)

/-- `t > d / √m` for `m > 0`, decided without the square root. -/
def scalarGTratio (t d m : ℚ) : Bool :=
  if 0 ≤ d then decide (0 ≤ t) && decide (d ^ 2 < t ^ 2 * m)
  else decide (0 ≤ t) || decide (t ^ 2 * m < d ^ 2)

/-- `d1 / √m1 > d2 / √m2` for `m1, m2 > 0`, square-root-free. -/
def ratioGTratio (d1 m1 d2 m2 : ℚ) : Bool :=
  if 0 ≤ d1 then
    if 0 ≤ d2 then decide (d2 ^ 2 * m1 < d1 ^ 2 * m2) else true
  else
    if 0 ≤ d2 then false else decide (d1 ^ 2 * m2 < d2 ^ 2 * m1)

/-- Strict comparison `a < b` of two similarity values (the `sim > best_sim`
tests of the argmax loops in worker.py). -/
def SimVal.lt : SimVal → SimVal → Bool
  | .scalar s, .scalar t => decide (s < t)
  | .scalar s, .ratio d m => ratioGTscalar d m s
  | .ratio d m, .scalar t => scalarGTratio t d m
  | .ratio d1 m1, .ratio d2 m2 => ratioGTratio d2 m2 d1 m1

/-- `_cosine_similarity a b >= thr` (the candidate-pair test of
theme_merge.py:177 and 272), square-root-free. -/
def cosineGE (a b : List ℚ) (thr : ℚ) : Bool :=
  match simOf a b with
  | .scalar s => decide (thr ≤ s)
  | .ratio d m =>
    if 0 ≤ thr then decide (0 ≤ d) && decide (thr ^ 2 * m ≤ d ^ 2)
    else decide (0 ≤ d) || decide (d ^ 2 ≤ thr ^ 2 * m)

/-! ## Data model (`models.py`), configuration (`settings.py`), environment -/

/-- `Theme` (models.py:84): the fields the modelled code reads. -/
structure Theme where
  id : Nat
  canonical_label : String
  embedding : Option (List ℚ) := none
deriving DecidableEq, Repr

/-- `ThemeAlias` (models.py:103).  `alias` is a Lean keyword, so the column
is written `«alias»`. -/
structure ThemeAlias where
  theme_id : Nat
  «alias» : String
  created_by : String := "system"
  confidence : Option ℚ := some 1
deriving DecidableEq, Repr

/-- `Narrative` (models.py:135): the fields the merge/resolution core reads. -/
structure Narrative where
  id : Nat
  theme_id : Nat
  statement : String := ""
deriving DecidableEq, Repr

/-- `Evidence` (models.py:155). -/
structure Evidence where
  narrative_id : Nat
  document_id : Nat := 0
  quote : String := ""
deriving DecidableEq, Repr

/-- `ThemeMentionsDaily` (models.py:168).  Dates are abstract keys; the
counts are non-nullable integer columns (default 0), so the source's
`row.doc_count or 0` is the identity and the counts are modelled as `Nat`. -/
structure ThemeMentionsDaily where
  theme_id : Nat
  date : Nat
  doc_count : Nat := 0
  mention_count : Nat := 0
  share_of_voice : Option ℚ := none
deriving DecidableEq, Repr

/-- `ThemeRelationDaily` (models.py:178). -/
structure ThemeRelationDaily where
  theme_id : Nat
  date : Nat
  consensus_count : Nat := 0
  contrarian_count : Nat := 0
  refinement_count : Nat := 0
  new_angle_count : Nat := 0
deriving DecidableEq, Repr

/-- `ThemeMergeReinforcement` (models.py:189).  List position models
`created_at` order: later rows are more recent. -/
structure ThemeMergeReinforcement where
  source_label : String
  source_embedding : Option (List ℚ)
  target_theme_id : Nat
deriving DecidableEq, Repr

/-- The relational store the merge/resolution core operates on.  List order
models insertion order; `next_theme_id` models the autoincrement id
allocator for `themes`. -/
structure Store where
  themes : List Theme := []
  aliases : List ThemeAlias := []
  narratives : List Narrative := []
  evidence : List Evidence := []
  mentions_daily : List ThemeMentionsDaily := []
  relation_daily : List ThemeRelationDaily := []
  reinforcements : List ThemeMergeReinforcement := []
  next_theme_id : Nat := 1
deriving DecidableEq, Repr

/-- The configuration fields of `Settings` (settings.py) that the modelled
code reads, with the defaults of settings.py. -/
structure Settings where
  llm_max_concurrent_requests : Int := 3
  llm_api_key : String := ""
  theme_similarity_use_embedding : Bool := true
  theme_similarity_use_text : Bool := true
  theme_similarity_embedding_threshold : ℚ := 92 / 100
  theme_similarity_text_threshold : ℚ := 7 / 10
  theme_merge_suggestion_embedding_threshold : ℚ := 92 / 100
  theme_merge_use_llm_suggest : Bool := false
  theme_merge_use_content_embedding : Bool := false
  theme_merge_content_embedding_threshold : ℚ := 9 / 10
  theme_merge_require_both_embeddings : Bool := false
  theme_merge_reinforcement_enabled : Bool := true
  theme_merge_reinforcement_threshold : ℚ := 8 / 10
deriving DecidableEq, Repr

/-- The settings.py defaults. -/
def defaultSettings : Settings := {}

/-- Oracle environment for the out-of-scope collaborators: the embedding
provider (`is_embedding_available` / `embed_texts`) and the LLM group
suggester (`suggest_theme_merge_groups`).  A `none` answer models a raised
exception. -/
structure Env where
  embedAvailable : Bool
  embed : List String → Option (List (List ℚ))
  suggestGroups : List String → Option (List (List String))

/-- An environment with no embedding provider configured. -/
def noEmbedEnv : Env :=
  ⟨false, fun _ => none, fun _ => none⟩

/-- `db.query(Theme).filter(Theme.id == tid).one_or_none()`. -/
def findTheme (st : Store) (tid : Nat) : Option Theme :=
  st.themes.find? (fun t => t.id == tid)

/-- `db.query(Theme).filter(Theme.canonical_label == canon).one_or_none()`. -/
def findThemeByCanonical (st : Store) (canon : String) : Option Theme :=
  st.themes.find? (fun t => t.canonical_label == canon)

/-- Whether a theme with this id exists. -/
def themeExists (st : Store) (tid : Nat) : Bool :=
  (findTheme st tid).isSome

/-- `db.query(Narrative).filter(Narrative.theme_id == tid).count()`. -/
def countNarratives (st : Store) (tid : Nat) : Nat :=
  (st.narratives.filter (fun n => n.theme_id == tid)).length

/-- The `ThemeMentionsDaily` row of `(tid, d)`, if any. -/
def mentionsRow (st : Store) (tid d : Nat) : Option ThemeMentionsDaily :=
  st.mentions_daily.find? (fun r => r.theme_id == tid && r.date == d)

/-- The `ThemeRelationDaily` row of `(tid, d)`, if any. -/
def relationRow (st : Store) (tid d : Nat) : Option ThemeRelationDaily :=
  st.relation_daily.find? (fun r => r.theme_id == tid && r.date == d)

/-! ## Resolver cascade (`worker.py`) -/

/-- `ensure_alias` (worker.py:135): add `(theme_id, canonical form of label)`
to the alias table unless already present. -/
def ensure_alias (st : Store) (theme_id : Nat) (label : String)
    (created_by : String) (confidence : Option ℚ) : Store :=
  let canon := canonicalize_label label
  match st.aliases.find? (fun a => a.theme_id == theme_id && a.«alias» == canon) with
  | some _ => st
  | none =>
    {st with aliases := st.aliases ++ [⟨theme_id, canon, created_by, confidence⟩]}

/-- `_find_theme_by_alias` (worker.py:150).  The source's final `.one()` is
modelled by `findTheme`; on stores whose aliases all reference live themes it
returns exactly that one theme. -/
def _find_theme_by_alias (st : Store) (canon : String) : Option Theme :=
  match st.aliases.find? (fun a => a.«alias» == canon) with
  | none => none
  | some row => findTheme st row.theme_id

/-- The exact-match query of `_find_theme_by_merge_reinforcement`
(worker.py:174-179): most recent reinforcement row whose `source_label` is
the canonical label (`order_by(created_at.desc()).first()`). -/
def reinforcementExactTarget (st : Store) (canon : String) : Option Nat :=
  (st.reinforcements.reverse.find? (fun r => r.source_label == canon)).map
    (fun r => r.target_theme_id)

/-- `_find_theme_by_merge_reinforcement` (worker.py:162-216): exact match on
the stored source label first, then embedding similarity against stored
source embeddings. -/
def _find_theme_by_merge_reinforcement (env : Env) (s : Settings) (st : Store)
    (label : String) : Option Theme :=
  if ¬ s.theme_merge_reinforcement_enabled then none
  else
    let canon := canonicalize_label label
    let exact : Option Theme :=
      match reinforcementExactTarget st canon with
      | some tid => findTheme st tid
      | none => none
    match exact with
    | some t => some t
    | none =>
      if ¬ env.embedAvailable then none
      else
        let reinfs := st.reinforcements.filter (fun r => r.source_embedding.isSome)
        if reinfs.isEmpty then none
        else
          match env.embed [label] with
          | none => none
          | some [] => none
          | some (e0 :: _) =>
            if e0 = [] then none
            else
              let thr := s.theme_merge_reinforcement_threshold
              let best := (reinfs.foldl (fun acc r =>
                let sim := simOf e0 (r.source_embedding.getD [])
                if acc.2.lt sim then (some r.target_theme_id, sim) else acc)
                ((none : Option Nat), SimVal.scalar thr)).1
              match best with
              | none => none
              | some tid => findTheme st tid

/-- `_find_similar_theme_by_embedding` (worker.py:219-248): embed the label
and take the stored-embedding theme of highest cosine similarity above the
threshold (`sim > best_sim`, first maximum kept). -/
def _find_similar_theme_by_embedding (env : Env) (s : Settings) (st : Store)
    (label : String) : Option Theme :=
  if ¬ s.theme_similarity_use_embedding then none
  else if ¬ env.embedAvailable then none
  else
    let themes_with_emb := st.themes.filter (fun t => t.embedding.isSome)
    if themes_with_emb.isEmpty then none
    else
      match env.embed [label] with
      | none => none
      | some [] => none
      | some (e0 :: _) =>
        if e0 = [] then none
        else
          let thr := s.theme_similarity_embedding_threshold
          (themes_with_emb.foldl (fun acc t =>
            match t.embedding with
            | none => acc
            | some e =>
              if e = [] then acc
              else
                let sim := simOf e0 e
                if acc.2.lt sim then (some t, sim) else acc)
            ((none : Option Theme), SimVal.scalar thr)).1

/-- `_find_similar_theme_by_text` (worker.py:109-132): token-Dice similarity
against every theme label, best strict improvement over the threshold. -/
def _find_similar_theme_by_text (s : Settings) (st : Store) (label : String) :
    Option Theme :=
  if ¬ s.theme_similarity_use_text then none
  else
    let thr := s.theme_similarity_text_threshold
    let query_tokens := _token_set label
    if query_tokens = ∅ then none
    else if st.themes.isEmpty then none
    else
      (st.themes.foldl (fun acc t =>
        let other := _token_set t.canonical_label
        if other = ∅ then acc
        else
          let sim := _dice_similarity query_tokens other
          if acc.2 < sim then (some t, sim) else acc)
        ((none : Option Theme), thr)).1

/-- `_find_similar_theme` (worker.py:251-256). -/
def _find_similar_theme (env : Env) (s : Settings) (st : Store) (label : String) :
    Option Theme :=
  match _find_similar_theme_by_embedding env s st label with
  | some t => some t
  | none => _find_similar_theme_by_text s st label

/-- `resolve_theme` (worker.py:259-311): the ordered resolution cascade.
Returns the updated store and the resolved (or created) theme.  In the
create path the two flushes of the source (row insert, then optional
embedding update) collapse into constructing the stored row directly. -/
def resolve_theme (env : Env) (s : Settings) (st : Store) (label : String) :
    Store × Theme :=
  let canon := canonicalize_label label
  match findThemeByCanonical st canon with
  | some t => (st, t)
  | none =>
  match _find_theme_by_alias st canon with
  | some t => (ensure_alias st t.id label "system" (some 1), t)
  | none =>
  match _find_theme_by_merge_reinforcement env s st label with
  | some t => (ensure_alias st t.id label "system" (some (98 / 100)), t)
  | none =>
  match _find_similar_theme env s st label with
  | some t => (ensure_alias st t.id label "system" (some (95 / 100)), t)
  | none =>
  let substring_matches := st.themes.filter (fun ot =>
    (strIn ot.canonical_label canon || strIn canon ot.canonical_label)
    && ot.canonical_label != canon)
  match substring_matches with
  | m :: ms =>
    let broader := ms.foldl
      (fun best x =>
        if x.canonical_label.length < best.canonical_label.length then x else best) m
    (ensure_alias st broader.id label "system" (some (9 / 10)), broader)
  | [] =>
    let emb : Option (List ℚ) :=
      if env.embedAvailable then
        match env.embed [canon] with
        | some (e0 :: _) => if e0 = [] then none else some e0
        | _ => none
      else none
    let t : Theme := ⟨st.next_theme_id, canon, emb⟩
    ({st with themes := st.themes ++ [t], next_theme_id := st.next_theme_id + 1}, t)

/-! ## Merge executor (`theme_merge.py:403-546`) with transactional model -/

/-- The alias-copy loop of step 2 (theme_merge.py:434-444): walk the source
aliases in order, adding a copy for the target unless the alias text is
already present on the target (`existing` tracks the growing set). -/
def copyAliases (tgt : Nat) : List ThemeAlias → List String → List ThemeAlias
  | [], _ => []
  | al :: rest, existing =>
    if existing.contains al.«alias» then copyAliases tgt rest existing
    else ⟨tgt, al.«alias», al.created_by, al.confidence⟩ ::
      copyAliases tgt rest (al.«alias» :: existing)

/-- Step 3 loop body (theme_merge.py:455-476): merge the source's daily
mention rows into the target's, summing counts when the target already has a
row for the date, otherwise inserting a copy keyed to the target. -/
def mergeMentionsRows (tgt : Nat) (rows acc : List ThemeMentionsDaily) :
    List ThemeMentionsDaily :=
  rows.foldl (fun l row =>
    match l.find? (fun r => r.theme_id == tgt && r.date == row.date) with
    | some _ =>
      updateFirst (fun r => r.theme_id == tgt && r.date == row.date)
        (fun r => {r with doc_count := r.doc_count + row.doc_count,
                          mention_count := r.mention_count + row.mention_count}) l
    | none =>
      l ++ [⟨tgt, row.date, row.doc_count, row.mention_count, row.share_of_voice⟩])
    acc

/-- Step 4 loop body (theme_merge.py:487-511): same merge for the relation
breakdown rows. -/
def mergeRelationRows (tgt : Nat) (rows acc : List ThemeRelationDaily) :
    List ThemeRelationDaily :=
  rows.foldl (fun l row =>
    match l.find? (fun r => r.theme_id == tgt && r.date == row.date) with
    | some _ =>
      updateFirst (fun r => r.theme_id == tgt && r.date == row.date)
        (fun r => {r with consensus_count := r.consensus_count + row.consensus_count,
                          contrarian_count := r.contrarian_count + row.contrarian_count,
                          refinement_count := r.refinement_count + row.refinement_count,
                          new_angle_count := r.new_angle_count + row.new_angle_count}) l
    | none =>
      l ++ [⟨tgt, row.date, row.consensus_count, row.contrarian_count,
             row.refinement_count, row.new_angle_count⟩])
    acc

/-- The mutation sequence of `execute_theme_merge` after its guards
(theme_merge.py:420-537), in source order.  `source` is the source `Theme`
row fetched before any mutation.  Every step mutates only the session state
(the source calls `flush`, never `commit`). -/
def mergeSteps (s : Settings) (src tgt : Nat) (source : Theme) :
    List (Store → Store) :=
  [ -- 1) reassign narratives
    fun st => {st with narratives := (st.narratives.map
      (fun n => if n.theme_id == src then {n with theme_id := tgt} else n))},
    -- 2a) copy source aliases to target, skipping duplicates
    fun st =>
      let source_aliases := st.aliases.filter (fun a => a.theme_id == src)
      let existing := (st.aliases.filter (fun a => a.theme_id == tgt)).map
        (fun a => a.«alias»)
      {st with aliases := st.aliases ++ copyAliases tgt source_aliases existing},
    -- 2b) delete source aliases
    fun st => {st with aliases := st.aliases.filter (fun a => ¬ a.theme_id == src)},
    -- 3a) merge daily mention rows into the target by date
    fun st =>
      let source_daily := st.mentions_daily.filter (fun r => r.theme_id == src)
      {st with mentions_daily := mergeMentionsRows tgt source_daily st.mentions_daily},
    -- 3b) delete source mention rows
    fun st => {st with mentions_daily :=
      st.mentions_daily.filter (fun r => ¬ r.theme_id == src)},
    -- 4a) merge daily relation rows into the target by date
    fun st =>
      let source_rel := st.relation_daily.filter (fun r => r.theme_id == src)
      {st with relation_daily := mergeRelationRows tgt source_rel st.relation_daily},
    -- 4b) delete source relation rows
    fun st => {st with relation_daily :=
      st.relation_daily.filter (fun r => ¬ r.theme_id == src)},
    -- 4.5) record the merge reinforcement (gated by settings; the source
    -- wraps this insert in a non-fatal try/except, and constructing the row
    -- cannot fail in the model)
    fun st =>
      if s.theme_merge_reinforcement_enabled then
        {st with reinforcements := st.reinforcements ++
          [⟨canonicalize_label source.canonical_label, source.embedding, tgt⟩]}
      else st,
    -- 5) delete the source theme
    fun st => {st with themes := st.themes.filter (fun t => ¬ t.id == src)} ]

/-- Run a prefix of the mutation steps, aborting with the partial session
state if the injected fault index `failAt` lies inside the sequence (this
models an exception — e.g. an operational database error — thrown by the
`failAt`-th statement). -/
def runStepsWithFault (steps : List (Store → Store)) (failAt : Option Nat)
    (st : Store) : Except (String × Store) Store :=
  match failAt with
  | none => .ok (steps.foldl (fun acc f => f acc) st)
  | some k =>
    if k < steps.length then
      .error ("injected db error",
        ((steps.take k).foldl (fun acc f => f acc) st))
    else .ok (steps.foldl (fun acc f => f acc) st)

/-- `execute_theme_merge` (theme_merge.py:403-546) with fault injection.  On
success returns the session state after all mutations together with the
number of narratives moved (counted before the reassignment, as in the
source); on failure returns the raised message and the session state at the
time of the exception. -/
def execute_theme_merge_with_fault (s : Settings) (st : Store) (src tgt : Nat)
    (failAt : Option Nat) : Except (String × Store) (Store × Nat) :=
  if src = tgt then .ok (st, 0)
  else
    match findTheme st src, findTheme st tgt with
    | some source, some _ =>
      (runStepsWithFault (mergeSteps s src tgt source) failAt st).map
        (fun st2 => (st2, countNarratives st src))
    | _, _ => .error ("Source or target theme not found", st)

/-- `execute_theme_merge` without injected faults. -/
def execute_theme_merge (s : Settings) (st : Store) (src tgt : Nat) :
    Except (String × Store) (Store × Nat) :=
  execute_theme_merge_with_fault s st src tgt none

/-- The `POST /admin/themes/merge` endpoint `merge_themes` (main.py:2501-2512)
together with the `get_db` session scope (db.py:44-49): the committed store
is published only by the `db.commit()` that follows a successful
`execute_theme_merge`; on an exception the commit is skipped and closing the
session rolls the uncommitted mutations back.  Returns the store visible
after the request and the narrative-move count (none on failure). -/
def merge_themes (s : Settings) (committed : Store) (src tgt : Nat)
    (failAt : Option Nat) : Store × Option Nat :=
  match execute_theme_merge_with_fault s committed src tgt failAt with
  | .ok (pending, n) => (pending, some n)
  | .error _ => (committed, none)

/-! ## Merge candidate finder (`theme_merge.py:37-400`) -/

/-- `_ENTITY_GROUPS` (theme_merge.py:37-45). -/
def _ENTITY_GROUPS : List (Finset String) :=
  [ {"china", "chinese"},
    {"us", "america", "american"},
    {"europe", "european"},
    {"japan", "japanese"},
    {"uk", "british"},
    {"india", "indian"},
    {"asia", "asian"} ]

/-- `_labels_conflict_entities` (theme_merge.py:48-56).  The Python set of
intersected groups is modelled as the sublist of `_ENTITY_GROUPS` that the
token set meets; as both sides filter the same ordered list, list equality
coincides with set equality. -/
def _labels_conflict_entities (canon_a canon_b : String) : Bool :=
  let ta := _token_set canon_a
  let tb := _token_set canon_b
  let groups_a := _ENTITY_GROUPS.filter (fun g => decide ((ta ∩ g).Nonempty))
  let groups_b := _ENTITY_GROUPS.filter (fun g => decide ((tb ∩ g).Nonempty))
  if groups_a.isEmpty || groups_b.isEmpty then false
  else decide (groups_a ≠ groups_b)

/-- `MergeOptions` (theme_merge.py:59-73), defaults as in the source. -/
structure MergeOptions where
  embedding_threshold : Option ℚ := none
  use_embedding : Bool := true
  use_content_embedding : Bool := true
  content_embedding_threshold : Option ℚ := none
  content_weight : Option ℚ := none
  require_both_embeddings : Option Bool := none
  use_llm : Bool := false
  max_themes_for_llm : Nat := 200
  max_narratives_per_theme : Nat := 5
  max_quotes_per_theme : Nat := 8
  max_quote_chars : Nat := 250

/-- `MergeSet` (theme_merge.py:76-82). -/
structure MergeSet where
  theme_ids : List Nat
  canonical_theme_id : Nat
  labels : List String := []
deriving DecidableEq, Repr

/-- One union of `_union_find_merge`, on the partition represented as a list
of disjoint member lists.  Functional model of the path-compressed
union-find of theme_merge.py:85-111; the observable output (which ids end up
grouped together) is identical. -/
def ufStep (gs : List (List Nat)) (a b : Nat) : List (List Nat) :=
  if a == b then
    if gs.any (fun g => g.contains a) then gs else gs ++ [[a]]
  else
    match gs.find? (fun g => g.contains a), gs.find? (fun g => g.contains b) with
    | none, none => gs ++ [[a, b]]
    | some _, none => gs.map (fun g => if g.contains a then g ++ [b] else g)
    | none, some _ => gs.map (fun g => if g.contains b then g ++ [a] else g)
    | some ga, some gb =>
      if ga.contains b then gs
      else (gs.filter (fun g => g != gb)).map
        (fun g => if g.contains a then g ++ gb else g)

/-- `_union_find_merge` (theme_merge.py:85-111). -/
def _union_find_merge (pairs : List (Nat × Nat)) : List (List Nat) :=
  pairs.foldl (fun gs p => ufStep gs p.1 p.2) []

def insertNat (x : Nat) : List Nat → List Nat
  | [] => [x]
  | y :: ys => if x ≤ y then x :: y :: ys else y :: insertNat x ys

/-- Ascending insertion sort (models Python `sorted` on ids). -/
def sortNat : List Nat → List Nat
  | [] => []
  | x :: xs => insertNat x (sortNat xs)

def insertThemeById (x : Theme) : List Theme → List Theme
  | [] => [x]
  | y :: ys => if x.id ≤ y.id then x :: y :: ys else y :: insertThemeById x ys

/-- Models `query(Theme).order_by(Theme.id)` (theme_merge.py:290). -/
def sortThemesById : List Theme → List Theme
  | [] => []
  | x :: xs => insertThemeById x (sortThemesById xs)

/-- The activity key of `_pick_canonical` (theme_merge.py:150-158): number of
narratives, then number of evidence rows joined through the narratives. -/
def themeActivity (st : Store) (tid : Nat) : Nat × Nat :=
  (countNarratives st tid,
   (st.evidence.filter (fun e =>
     (st.narratives.find? (fun n => n.id == e.narrative_id)).any
       (fun n => n.theme_id == tid))).length)

/-- Strict lexicographic comparison of activity keys (Python tuple `>`). -/
def actGT (a b : Nat × Nat) : Bool :=
  b.1 < a.1 || (a.1 == b.1 && b.2 < a.2)

/-- Inner loop of the substring rule of `_pick_canonical`
(theme_merge.py:130-139): for the fixed theme `(t, c)` at index `i`, scan all
other labels; a strictly shorter label contained in the longer one wins. -/
def subScanInner (t : Theme) (c : String) (i : Nat) :
    List (Theme × String) → Nat → Option Nat
  | [], _ => none
  | (o, oc) :: rest, j =>
    if i == j then subScanInner t c i rest (j + 1)
    else if strIn c oc && c.length < oc.length then some t.id
    else if strIn oc c && oc.length < c.length then some o.id
    else subScanInner t c i rest (j + 1)

/-- Outer loop of the substring rule. -/
def subScanOuter (zs : List (Theme × String)) :
    List (Theme × String) → Nat → Option Nat
  | [], _ => none
  | (t, c) :: rest, i =>
    match subScanInner t c i zs 0 with
    | some r => some r
    | none => subScanOuter zs rest (i + 1)

/-- `_pick_canonical` (theme_merge.py:114-163): substring rule, then broader
token set, then activity, then lowest id. -/
def _pick_canonical (st : Store) (theme_ids : List Nat) : Nat :=
  match theme_ids with
  | [] => 0
  | tid0 :: rest =>
    if rest.isEmpty then tid0
    else
      let themes := theme_ids.filterMap (fun tid => findTheme st tid)
      match themes with
      | [] => tid0
      | t0 :: _ =>
        let zs := themes.map (fun t => (t, canonicalize_label t.canonical_label))
        match subScanOuter zs zs 0 with
        | some r => r
        | none =>
          let ys := zs.map (fun p => (p.1, _token_set p.2))
          match ys with
          | [] => tid0
          | y0 :: yrest =>
            let best := yrest.foldl (fun b y =>
              if y.2.card < b.2.card ||
                 (y.2.card == b.2.card && y.1.id < b.1.id) then y else b) y0
            let mx := (ys.map (fun y => y.2.card)).foldl max 0
            if best.2.card < mx then best.1.id
            else
              let bestAct := themes.foldl (fun b t =>
                if actGT (themeActivity st t.id) (themeActivity st b.id) then t else b) t0
              let same := themes.filter (fun t =>
                themeActivity st t.id == themeActivity st bestAct.id)
              same.foldl (fun m t => min m t.id) bestAct.id

/-- Truthiness of `t.embedding` in Python (`None` and `[]` are falsy). -/
def embTruthy (t : Theme) : Bool :=
  match t.embedding with
  | some (_ :: _) => true
  | _ => false

/-- `_candidates_embedding` (theme_merge.py:166-179): all pairs of themes
with stored embeddings whose cosine similarity reaches the threshold. -/
def _candidates_embedding (themes : List Theme) (threshold : ℚ) :
    List (Nat × Nat) :=
  let with_emb := themes.filter (fun t => t.embedding.isSome)
  ((ordPairs with_emb).filter (fun p =>
    cosineGE (p.1.embedding.getD []) (p.2.embedding.getD []) threshold)).map
    (fun p => (p.1.id, p.2.id))

/-- `_theme_content_signature` (theme_merge.py:182-219). -/
def _theme_content_signature (st : Store) (theme : Theme)
    (max_narratives max_quotes max_quote_chars : Nat) : String :=
  let parts0 := ["Theme: " ++ theme.canonical_label, "Narratives:"]
  let narrs := ((st.narratives.filter (fun n => n.theme_id == theme.id)).take
    max_narratives).map (fun n => n.statement)
  let nparts := (narrs.filter (fun stmt => stmt.trim ≠ "")).map
    (fun stmt => stmt.trim.take 500)
  let quotes := ((st.evidence.filter (fun e =>
    (st.narratives.find? (fun n => n.id == e.narrative_id)).any
      (fun n => n.theme_id == theme.id))).take max_quotes).map (fun e => e.quote)
  let qparts := (quotes.filter (fun q => q.trim ≠ "")).map
    (fun q => q.trim.take max_quote_chars)
  let text := String.intercalate "\n" (parts0 ++ nparts ++ ["Quotes:"] ++ qparts)
  if 8000 < text.length then text.take 8000 else text

/-- Batching of `_candidates_content_embedding` (`batch_size = 20`). -/
def chunkBy20 (l : List String) : List (List String) :=
  match l with
  | [] => []
  | x :: xs => ((x :: xs).take 20) :: chunkBy20 ((x :: xs).drop 20)
termination_by l.length
decreasing_by simp [List.length_drop]; omega

/-- `_candidates_content_embedding` (theme_merge.py:222-274): embed the
content signatures batchwise (a failed batch contributes empty vectors) and
keep pairs whose content similarity reaches the threshold. -/
def _candidates_content_embedding (env : Env) (st : Store)
    (themes : List Theme) (threshold : ℚ)
    (max_narratives max_quotes max_quote_chars : Nat) : List (Nat × Nat) :=
  if ¬ env.embedAvailable then []
  else
    let signatures := themes.map (fun t =>
      _theme_content_signature st t max_narratives max_quotes max_quote_chars)
    if signatures.isEmpty then []
    else
      let all_embeddings := (chunkBy20 signatures).foldl (fun acc batch =>
        match env.embed batch with
        | some embs => acc ++ embs
        | none => acc ++ List.replicate batch.length []) []
      if all_embeddings.length ≠ themes.length then []
      else
        let zipped := themes.zip all_embeddings
        ((ordPairs zipped).filter (fun p =>
          !p.1.2.isEmpty && !p.2.2.isEmpty && cosineGE p.1.2 p.2.2 threshold)).map
          (fun p => (p.1.1.id, p.2.1.id))

/-- Normalised (unordered) pair key (`_norm`, theme_merge.py:340-341). -/
def normPair (p : Nat × Nat) : Nat × Nat :=
  (min p.1 p.2, max p.1 p.2)

/-- Pairs contributed by the LLM grouping suggester (theme_merge.py:349-366).
The Python dict comprehension keeps the *last* theme for a duplicated
canonical label, hence the reversed search. -/
def llmGroupPairs (themes : List Theme) (groups : List (List String)) :
    List (Nat × Nat) :=
  groups.foldl (fun acc group =>
    if group.length < 2 then acc
    else
      let ids_in_group := group.foldl (fun ids lb =>
        let canon := canonicalize_label lb
        match themes.reverse.find?
          (fun t => canonicalize_label t.canonical_label == canon) with
        | some t => if ids.contains t.id then ids else ids ++ [t.id]
        | none => ids) []
      acc ++ ordPairs ids_in_group) []

/-- The dedupe / entity-conflict filter of `compute_merge_candidates`
(theme_merge.py:370-386): drop self-pairs, pairs with an unknown id, pairs
whose canonical labels conflict on entity groups, and already-seen
(unordered) pairs. -/
def ufpAux (st : Store) (seen : List (Nat × Nat)) :
    List (Nat × Nat) → List (Nat × Nat)
  | [] => []
  | (a, b) :: rest =>
    if a == b then ufpAux st seen rest
    else
      match findTheme st a, findTheme st b with
      | some ta, some tb =>
        if _labels_conflict_entities (canonicalize_label ta.canonical_label)
            (canonicalize_label tb.canonical_label) then ufpAux st seen rest
        else
          let key := normPair (a, b)
          if seen.contains key then ufpAux st seen rest
          else (a, b) :: ufpAux st (key :: seen) rest
      | _, _ => ufpAux st seen rest

def uniqueFilteredPairs (st : Store) (all_pairs : List (Nat × Nat)) :
    List (Nat × Nat) :=
  ufpAux st [] all_pairs

/-- `compute_merge_candidates` (theme_merge.py:277-400).  The `require_both`
intersection is a Python set; it is modelled by the label pairs' normalised
keys (first-occurrence order) restricted to the content keys — the same set
of pairs, in a deterministic order (order only affects the order of the
output list, not which ids get clustered together). -/
def compute_merge_candidates (env : Env) (s : Settings) (st : Store)
    (options : Option MergeOptions) : List MergeSet :=
  let opts := options.getD {}
  let embedding_thr :=
    opts.embedding_threshold.getD s.theme_merge_suggestion_embedding_threshold
  let themes := sortThemesById st.themes
  if themes.isEmpty then []
  else
    let label_pairs :=
      if opts.use_embedding && themes.any embTruthy then
        _candidates_embedding themes embedding_thr
      else []
    let content_pairs :=
      if opts.use_content_embedding && s.theme_merge_use_content_embedding
          && env.embedAvailable then
        _candidates_content_embedding env st themes
          (opts.content_embedding_threshold.getD
            s.theme_merge_content_embedding_threshold)
          opts.max_narratives_per_theme opts.max_quotes_per_theme
          opts.max_quote_chars
      else []
    let require_both :=
      opts.require_both_embeddings.getD s.theme_merge_require_both_embeddings
    let all_pairs :=
      if require_both && !label_pairs.isEmpty && !content_pairs.isEmpty then
        ((label_pairs.map normPair).dedup).filter
          (fun k => (content_pairs.map normPair).contains k)
      else label_pairs ++ content_pairs
    let all_pairs2 :=
      if opts.use_llm && s.theme_merge_use_llm_suggest && s.llm_api_key != "" then
        match env.suggestGroups
          ((themes.take opts.max_themes_for_llm).map
            (fun t => t.canonical_label)) with
        | some groups => all_pairs ++ llmGroupPairs themes groups
        | none => all_pairs
      else all_pairs
    let unique_pairs := uniqueFilteredPairs st all_pairs2
    let sets := _union_find_merge unique_pairs
    (sets.filter (fun g => 2 ≤ g.length)).map (fun g =>
      let theme_ids := sortNat g
      let canonical_id := _pick_canonical st theme_ids
      let labels := theme_ids.filterMap
        (fun tid => (findTheme st tid).map (fun t => t.canonical_label))
      ⟨theme_ids, canonical_id, labels⟩)

/-! ## Ingest worker pool (`worker.py:49-53, 354-377, 514-608`) -/

/-- The bound of the LLM-call semaphore (`_get_llm_semaphore`,
worker.py:49-53): `Semaphore(max(1, settings.llm_max_concurrent_requests))`. -/
def _llm_semaphore_size (s : Settings) : Int :=
  max 1 s.llm_max_concurrent_requests

/-- The worker-pool size of `run_loop` (worker.py:544):
`max_workers = max(1, settings.llm_max_concurrent_requests)`. -/
def run_loop_max_workers (s : Settings) : Int :=
  max 1 s.llm_max_concurrent_requests

/-- `IngestJob` (models.py:49): the status fields the error-isolation logic
touches. -/
structure IngestJob where
  id : Nat
  status : String := "queued"
  error_message : Option String := none
deriving DecidableEq, Repr

/-- `process_job` (worker.py:354-377).  The work of `_process_job_inner`
(download, extraction, resolution, persistence) is abstracted into its
outcome `inner`; an `Except.error` models any exception it raises.  The
returned pair is the job row after the call and what (if anything) escapes
to the caller: the source's `try/except` marks the job and deliberately does
not re-raise, and on success the inner function has set the job to `done`. -/
def process_job (inner : Except String Unit) (job : IngestJob) :
    IngestJob × Except String Unit :=
  let j := {job with status := "processing", error_message := none}
  match inner with
  | .ok _ => ({j with status := "done"}, .ok ())
  | .error e => ({j with status := "error", error_message := some e}, .ok ())

/-- One scheduling round of `run_loop` (worker.py:552-608) over a claimed
batch of jobs: each job is processed independently with its own outcome
(`outcomes` maps a job id to the outcome of its inner processing). -/
def runRound (outcomes : Nat → Except String Unit) (jobs : List IngestJob) :
    List IngestJob :=
  jobs.map (fun j => (process_job (outcomes j.id) j).1)

/-- A small store for the C1 witness: two themes, one narrative on the
source. -/
def rollbackStore : Store :=
  { themes := [⟨1, "a", none⟩, ⟨2, "b", none⟩],
    narratives := [⟨1, 1, "x"⟩] }

/-- The session state at the injected failure (after five of the nine merge
steps): the narrative has already been reassigned in the pending state. -/
def rollbackPending : Store :=
  { themes := [⟨1, "a", none⟩, ⟨2, "b", none⟩],
    narratives := [⟨1, 2, "x"⟩] }

/-- Three themes for the C8 counterexample: two conflicting regional labels
and one broader label similar to both (all with identical stored label
embeddings, cosine 1 ≥ the 0.92 threshold). -/
def entityCexStore : Store :=
  { themes := [⟨1, "china consumer", some [1]⟩, ⟨2, "us consumer", some [1]⟩,
               ⟨3, "consumer", some [1]⟩],
    next_theme_id := 4 }

/-! ## Daily-table upsert structure (for the merge postcondition proofs) -/

/-- The key predicate of the daily-table upsert loops: the row of
`(tgt, d)` (the filter of theme_merge.py:456-462 and 488-494). -/
def kMen (tgt d : Nat) (r : ThemeMentionsDaily) : Bool :=
  r.theme_id == tgt && r.date == d

/-- The in-place count update of theme_merge.py:465-466. -/
def updMen (t r : ThemeMentionsDaily) : ThemeMentionsDaily :=
  {t with doc_count := t.doc_count + r.doc_count,
          mention_count := t.mention_count + r.mention_count}

/-- The inserted target-keyed copy of theme_merge.py:468-476. -/
def mkMen (tgt : Nat) (r : ThemeMentionsDaily) : ThemeMentionsDaily :=
  ⟨tgt, r.date, r.doc_count, r.mention_count, r.share_of_voice⟩

def kRel (tgt d : Nat) (r : ThemeRelationDaily) : Bool :=
  r.theme_id == tgt && r.date == d

/-- The in-place count update of theme_merge.py:497-500. -/
def updRel (t r : ThemeRelationDaily) : ThemeRelationDaily :=
  {t with consensus_count := t.consensus_count + r.consensus_count,
          contrarian_count := t.contrarian_count + r.contrarian_count,
          refinement_count := t.refinement_count + r.refinement_count,
          new_angle_count := t.new_angle_count + r.new_angle_count}

/-- The inserted target-keyed copy of theme_merge.py:502-511. -/
def mkRel (tgt : Nat) (r : ThemeRelationDaily) : ThemeRelationDaily :=
  ⟨tgt, r.date, r.consensus_count, r.contrarian_count, r.refinement_count,
   r.new_angle_count⟩

/-- The generic shape of one iteration of the daily-row merge loops: look up
the target row for the source row\'s date, update it in place if present,
else insert a fresh target-keyed row. -/
def dailyUpsert (key : Nat → α → Bool) (upd : α → α → α) (mk : α → α)
    (dOf : α → Nat) (l : List α) (row : α) : List α :=
  match l.find? (key (dOf row)) with
  | some _ => updateFirst (key (dOf row)) (fun t => upd t row) l
  | none => l ++ [mk row]

/-- The store after the nine mutation steps of a valid merge (the `.ok`
payload of `execute_theme_merge`). -/
def mergeResultStore (s : Settings) (st : Store) (src tgt : Nat)
    (source : Theme) : Store :=
  (mergeSteps s src tgt source).foldl (fun acc f => f acc) st

/-- The `(theme_id, date)` keys of the daily mention rows; well-formed
stores have no duplicate key (it is the table\'s primary key). -/
def mentionsKeys (st : Store) : List (Nat × Nat) :=
  st.mentions_daily.map (fun r => (r.theme_id, r.date))

def relationKeys (st : Store) : List (Nat × Nat) :=
  st.relation_daily.map (fun r => (r.theme_id, r.date))

/-- A store for the C2 witness: a source (1) and a target (2) with
narratives, an overlapping daily row (date 10), and source-only rows. -/
def mergeDemoStore : Store :=
  { themes := [⟨1, "a", none⟩, ⟨2, "b", none⟩],
    narratives := [⟨1, 1, "n1"⟩, ⟨2, 1, "n2"⟩, ⟨3, 2, "n3"⟩],
    mentions_daily := [⟨1, 10, 2, 3, none⟩, ⟨2, 10, 5, 7, none⟩,
                       ⟨1, 11, 1, 1, some 1⟩],
    relation_daily := [⟨1, 10, 1, 0, 2, 0⟩, ⟨2, 10, 3, 1, 0, 1⟩,
                       ⟨1, 12, 0, 1, 0, 0⟩],
    next_theme_id := 3 }

/-- A store for the C4 witness: a source topic "byd ev sales" (1) merged into
the target "byd" (2); the label "BYD EV Sales" canonicalizes to the source's
canonical label. -/
def c4Store : Store :=
  { themes := [⟨1, "byd ev sales", none⟩, ⟨2, "byd", none⟩],
    next_theme_id := 3 }


/-! ## C9 — Dice coefficient properties -/

/-- C9: for all finite token sets `A`, `B`: `dice(A, B) = 1` when both are
empty, `0` when exactly one is empty, else `2·|A∩B|/(|A|+|B|)`; and
`dice(A, A) = 1` for every `A`. -/
theorem dice_properties (A B : Finset String) :
    _dice_similarity A A = 1
    ∧ (A = ∅ → B = ∅ → _dice_similarity A B = 1)
    ∧ (A = ∅ → B ≠ ∅ → _dice_similarity A B = 0)
    ∧ (A ≠ ∅ → B = ∅ → _dice_similarity A B = 0)
    ∧ (A ≠ ∅ → B ≠ ∅ →
        _dice_similarity A B
          = 2 * ((A ∩ B).card : ℚ) / ((A.card : ℚ) + (B.card : ℚ))) := by
  refine ⟨?_, ?_, ?_, ?_, ?_⟩
  · by_cases hA : A = ∅
    · simp [_dice_similarity, hA]
    · have hc : (A.card : ℚ) ≠ 0 := by
        exact_mod_cast Finset.card_ne_zero.mpr (Finset.nonempty_iff_ne_empty.mpr hA)
      simp only [_dice_similarity, hA, and_self, if_false, or_self,
        Finset.inter_self]
      field_simp
      ring
  · intro h1 h2; simp [_dice_similarity, h1, h2]
  · intro h1 h2; simp [_dice_similarity, h1, h2]
  · intro h1 h2; simp [_dice_similarity, h1, h2]
  · intro h1 h2; simp [_dice_similarity, h1, h2]

/-- Witness for C9 at concrete sets. -/
theorem dice_properties_witness : _dice_similarity {"a"} ∅ = 0 :=
  (dice_properties {"a"} ∅).2.2.2.1 (by decide) rfl

/-! ## C10 — self-merge short-circuits before everything -/

/-- C10: for every id `x` (existing or not), `execute_theme_merge(x, x)`
returns 0 and leaves the store unchanged — the self-merge test precedes the
existence check, so no not-found error is raised and nothing is mutated. -/
theorem self_merge_noop (s : Settings) (st : Store) (x : Nat)
    (failAt : Option Nat) :
    execute_theme_merge_with_fault s st x x failAt = .ok (st, 0)
    ∧ execute_theme_merge s st x x = .ok (st, 0)
    ∧ merge_themes s st x x failAt = (st, some 0) := by
  refine ⟨?_, ?_, ?_⟩ <;>
    simp [merge_themes, execute_theme_merge, execute_theme_merge_with_fault]

/-! ## C6 — semaphore bound vs. worker-pool size -/

/-- C6 counterexample: there is no configuration in which the LLM semaphore
is narrower than the worker pool — both bounds are
`max(1, llm_max_concurrent_requests)` of the same settings object, so the
pool can never run more workers than there are permitted concurrent
extractor/embedding calls. -/
theorem semaphore_size_counterexample :
    ¬ ∃ s : Settings, _llm_semaphore_size s < run_loop_max_workers s := by
  rintro ⟨s, h⟩
  simp [_llm_semaphore_size, run_loop_max_workers] at h

/-- C6 amended: the semaphore is a separate synchronization object, but its
bound always equals the worker-pool size. -/
theorem semaphore_size_equals_pool_size (s : Settings) :
    run_loop_max_workers s = _llm_semaphore_size s := rfl

/-! ## C3 — merge with a nonexistent id fails with not-found, no mutation -/

/-- C3: if `src ≠ tgt` and either id does not exist, the merge raises the
not-found error before attempting any mutation (the session state carried by
the error equals the pre-call store), and the endpoint publishes nothing. -/
theorem merge_not_found_no_mutation (s : Settings) (st : Store)
    (src tgt : Nat) (failAt : Option Nat) (hne : src ≠ tgt)
    (h : themeExists st src = false ∨ themeExists st tgt = false) :
    execute_theme_merge_with_fault s st src tgt failAt
      = .error ("Source or target theme not found", st)
    ∧ merge_themes s st src tgt failAt = (st, none) := by
  have hex : execute_theme_merge_with_fault s st src tgt failAt
      = .error ("Source or target theme not found", st) := by
    unfold execute_theme_merge_with_fault
    rw [if_neg hne]
    rcases h with h | h
    · have hn : findTheme st src = none := by
        unfold themeExists at h
        exact Option.not_isSome_iff_eq_none.mp (by simp [h])
      cases htg : findTheme st tgt <;> simp [hn, htg]
    · have hn : findTheme st tgt = none := by
        unfold themeExists at h
        exact Option.not_isSome_iff_eq_none.mp (by simp [h])
      cases hsr : findTheme st src <;> simp [hn, hsr]
  exact ⟨hex, by simp [merge_themes, hex]⟩

/-- Witness for C3: merging two nonexistent ids on the empty store. -/
theorem merge_not_found_no_mutation_witness :
    execute_theme_merge_with_fault defaultSettings {} 1 2 none
      = .error ("Source or target theme not found", {})
    ∧ merge_themes defaultSettings {} 1 2 none = ({}, none) :=
  merge_not_found_no_mutation defaultSettings {} 1 2 none
    (by decide) (Or.inl (by decide))

/-! ## C1 — any failure rolls the merge back completely -/

/-- C1: whenever a merge request fails — at the guards or partway through
the mutation sequence (injected fault after an arbitrary prefix of the
steps) — the store visible after the request is exactly the pre-call store:
no narrative move, alias copy, daily-row change, reinforcement insert or
theme deletion of the failed merge is observable.  `execute_theme_merge`
never commits (it only flushes), the endpoint commits only after it returns,
and the session close on the error path rolls the pending mutations back. -/
theorem merge_failure_rolls_back (s : Settings) (st : Store) (src tgt : Nat)
    (failAt : Option Nat) (e : String) (pending : Store)
    (h : execute_theme_merge_with_fault s st src tgt failAt
      = .error (e, pending)) :
    merge_themes s st src tgt failAt = (st, none) := by
  simp [merge_themes, h]

/-- Witness for C1: a merge of two existing themes that fails after five
mutation steps (the pending state already differs from the store) publishes
nothing — the visible store is unchanged. -/
theorem merge_failure_rolls_back_witness :
    merge_themes defaultSettings rollbackStore 1 2 (some 5)
      = (rollbackStore, none) :=
  merge_failure_rolls_back defaultSettings rollbackStore 1 2 (some 5)
    "injected db error" rollbackPending (by rfl)

/-! ## C7 — per-job failures are isolated -/

/-- C7: if the inner processing of the job at index `i` raises, the job row
ends with status `error` and the captured message; nothing escapes
`process_job` to the scheduler (second conjunct); and every job of the round
is processed from its own row and outcome alone, so no failure affects any
other job (third conjunct). -/
theorem job_failure_isolated (outcomes : Nat → Except String Unit)
    (jobs : List IngestJob) (i : Nat) (j : IngestJob) (e : String)
    (hj : jobs.get? i = some j) (he : outcomes j.id = .error e) :
    (∃ j2, (runRound outcomes jobs).get? i = some j2
       ∧ j2.status = "error" ∧ j2.error_message = some e)
    ∧ (∀ inner job, (process_job inner job).2 = Except.ok ())
    ∧ (∀ k, (runRound outcomes jobs).get? k
        = (jobs.get? k).map (fun j3 => (process_job (outcomes j3.id) j3).1)) := by
  refine ⟨⟨(process_job (outcomes j.id) j).1, ?_, ?_, ?_⟩, ?_, ?_⟩
  · simp only [runRound, List.get?_map, hj]
    rfl
  · simp [process_job, he]
  · simp [process_job, he]
  · intro inner job
    cases inner <;> simp [process_job]
  · intro k
    simp only [runRound, List.get?_map]

/-- Witness for C7: a two-job round in which the first job's processing
raises `"boom"`. -/
theorem job_failure_isolated_witness :
    (∃ j2, (runRound (fun n => if n == 7 then .error "boom" else .ok ())
        [⟨7, "queued", none⟩, ⟨8, "queued", none⟩]).get? 0 = some j2
       ∧ j2.status = "error" ∧ j2.error_message = some "boom")
    ∧ (∀ inner job, (process_job inner job).2 = Except.ok ())
    ∧ (∀ k, (runRound (fun n => if n == 7 then .error "boom" else .ok ())
        [⟨7, "queued", none⟩, ⟨8, "queued", none⟩]).get? k
        = ([(⟨7, "queued", none⟩ : IngestJob), ⟨8, "queued", none⟩].get? k).map
          (fun j3 => (process_job
            ((fun n => if n == 7 then .error "boom" else .ok ()) j3.id) j3).1)) :=
  job_failure_isolated (fun n => if n == 7 then .error "boom" else .ok ())
    [⟨7, "queued", none⟩, ⟨8, "queued", none⟩] 0 ⟨7, "queued", none⟩ "boom"
    (by rfl) (by rfl)

/-! ## C8 — entity-conflict filter -/

unseal Rat.mul Rat.add Rat.sub Rat.inv in
/-- C8 counterexample: the pair ("china consumer", "us consumer") conflicts
on entity groups and is dropped as a direct candidate pair, yet both themes
appear inside the same returned `MergeSet` — union-find transitively
reunites them through the non-conflicting theme "consumer".  This refutes
the claim that a conflicting pair "never appears inside any returned
MergeSet". -/
theorem entity_conflict_pair_in_merge_set :
    _labels_conflict_entities (canonicalize_label "china consumer")
      (canonicalize_label "us consumer") = true
    ∧ ∃ ms ∈ compute_merge_candidates noEmbedEnv defaultSettings
        entityCexStore none, 1 ∈ ms.theme_ids ∧ 2 ∈ ms.theme_ids := by
  constructor
  · decide
  · have h : compute_merge_candidates noEmbedEnv defaultSettings
        entityCexStore none
        = [⟨[1, 2, 3], 3, ["china consumer", "us consumer", "consumer"]⟩] := by
      decide
    rw [h]
    exact ⟨⟨[1, 2, 3], 3, ["china consumer", "us consumer", "consumer"]⟩,
      by simp, by simp, by simp⟩

/-- Every pair surviving the dedupe / conflict filter references two
distinct existing themes whose canonical labels do not conflict (helper for
the amended C8). -/
theorem ufpAux_conflict_free (st : Store) (l : List (Nat × Nat)) :
    ∀ (seen : List (Nat × Nat)) (a b : Nat), (a, b) ∈ ufpAux st seen l →
      a ≠ b ∧ ∃ ta tb, findTheme st a = some ta ∧ findTheme st b = some tb ∧
        _labels_conflict_entities (canonicalize_label ta.canonical_label)
          (canonicalize_label tb.canonical_label) = false := by
  induction l with
  | nil => intro seen a b h; simp [ufpAux] at h
  | cons p rest ih =>
    intro seen a b h
    obtain ⟨x, y⟩ := p
    by_cases hxy : x = y
    · subst hxy
      simp only [ufpAux, beq_self_eq_true, if_true] at h
      exact ih _ _ _ h
    · have hxy2 : (x == y) = false := by simp [hxy]
      simp only [ufpAux, hxy2, Bool.false_eq_true, if_false] at h
      cases hfx : findTheme st x with
      | none =>
        rw [hfx] at h
        cases hfy : findTheme st y with
        | none => rw [hfy] at h; exact ih _ _ _ h
        | some tb => rw [hfy] at h; exact ih _ _ _ h
      | some ta =>
        rw [hfx] at h
        cases hfy : findTheme st y with
        | none => rw [hfy] at h; exact ih _ _ _ h
        | some tb =>
          rw [hfy] at h
          by_cases hc : _labels_conflict_entities
              (canonicalize_label ta.canonical_label)
              (canonicalize_label tb.canonical_label) = true
          · simp only [hc, if_true] at h
            exact ih _ _ _ h
          · have hc2 : _labels_conflict_entities
                (canonicalize_label ta.canonical_label)
                (canonicalize_label tb.canonical_label) = false := by
              simpa using hc
            simp only [hc2, Bool.false_eq_true, if_false] at h
            by_cases hs : seen.contains (normPair (x, y)) = true
            · simp only [hs, if_true] at h
              exact ih _ _ _ h
            · have hs2 : seen.contains (normPair (x, y)) = false := by
                simpa using hs
              simp only [hs2, Bool.false_eq_true, if_false] at h
              rcases List.mem_cons.mp h with heq | hmem
              · rw [Prod.mk.injEq] at heq
                obtain ⟨rfl, rfl⟩ := heq
                exact ⟨hxy, ta, tb, hfx, hfy, hc2⟩
              · exact ih _ _ _ hmem

/-! ## C2 — generic lemmas about the daily-row upsert fold -/

/-- `updateFirst` is invisible to a `find?` whose predicate is disjoint from
the updated row (before and after the update). -/
theorem find?_updateFirst_of_disj (p q : α → Bool) (f : α → α) (l : List α)
    (hpq : ∀ x, p x = true → q x = false)
    (hfq : ∀ x, q (f x) = q x) :
    (updateFirst p f l).find? q = l.find? q := by
  induction l with
  | nil => rfl
  | cons x xs ih =>
    by_cases hp : p x = true
    · have hqx : q x = false := hpq x hp
      have hqfx : q (f x) = false := by rw [hfq]; exact hqx
      simp only [updateFirst, hp, if_true]
      rw [List.find?_cons_of_neg _ (by simp [hqfx]),
        List.find?_cons_of_neg _ (by simp [hqx])]
    · have hp2 : p x = false := by simpa using hp
      simp only [updateFirst, hp2, Bool.false_eq_true, if_false]
      cases hq : q x
      · rw [List.find?_cons_of_neg _ (by simp [hq]),
          List.find?_cons_of_neg _ (by simp [hq])]
        exact ih
      · rw [List.find?_cons_of_pos _ hq, List.find?_cons_of_pos _ hq]

/-- `updateFirst p f` maps the row `find? p` returns to `f` of it, provided
`f` preserves the predicate. -/
theorem find?_updateFirst_self (p : α → Bool) (f : α → α) (l : List α) (x : α)
    (h : l.find? p = some x) (hf : ∀ y, p (f y) = p y) :
    (updateFirst p f l).find? p = some (f x) := by
  induction l with
  | nil => simp at h
  | cons y ys ih =>
    cases hp : p y
    · rw [List.find?_cons_of_neg _ (by simp [hp])] at h
      simp only [updateFirst, hp, Bool.false_eq_true, if_false]
      rw [List.find?_cons_of_neg _ (by simp [hp])]
      exact ih h
    · rw [List.find?_cons_of_pos _ hp] at h
      obtain rfl := Option.some.inj h
      simp only [updateFirst, hp, if_true]
      have hpf : p (f y) = true := by rw [hf]; exact hp
      rw [List.find?_cons_of_pos _ hpf]

section DailyFoldLemmas

variable {α : Type}
variable (key : Nat → α → Bool) (upd : α → α → α) (mk : α → α) (dOf : α → Nat)

/-- One upsert of a row of a different date does not change the `(tgt, d)`
lookup. -/
theorem dailyUpsert_preserve
    (hkey : ∀ d d2 x, key d x = true → key d2 x = true → d = d2)
    (hupd : ∀ d t r, key d (upd t r) = key d t)
    (hmk : ∀ d r, key d (mk r) = (dOf r == d))
    (d : Nat) (l : List α) (row : α)
    (hd : dOf row ≠ d) :
    (dailyUpsert key upd mk dOf l row).find? (key d) = l.find? (key d) := by
  unfold dailyUpsert
  cases hf : l.find? (key (dOf row)) with
  | none =>
    simp only [hf]
    rw [List.find?_append]
    have hone : List.find? (key d) [mk row] = none := by
      have : key d (mk row) = false := by
        rw [hmk]
        simpa using hd
      simp [List.find?_cons_of_neg, this]
    rw [hone]
    cases l.find? (key d) <;> rfl
  | some t =>
    simp only [hf]
    apply find?_updateFirst_of_disj
    · intro x hx
      cases hq : key d x
      · rfl
      · exact absurd (hkey (dOf row) d x hx hq) hd
    · intro x
      exact hupd d x row

/-- Folding upserts of rows none of which has date `d` does not change the
`(tgt, d)` lookup. -/
theorem dailyFold_preserve
    (hkey : ∀ d d2 x, key d x = true → key d2 x = true → d = d2)
    (hupd : ∀ d t r, key d (upd t r) = key d t)
    (hmk : ∀ d r, key d (mk r) = (dOf r == d))
    (d : Nat) (rows : List α)
    (h : ∀ r ∈ rows, dOf r ≠ d) (acc : List α) :
    (rows.foldl (dailyUpsert key upd mk dOf) acc).find? (key d)
      = acc.find? (key d) := by
  induction rows generalizing acc with
  | nil => rfl
  | cons r rest ih =>
    simp only [List.foldl_cons]
    rw [ih (fun x hx => h x (List.mem_cons_of_mem _ hx))]
    exact dailyUpsert_preserve key upd mk dOf hkey hupd hmk d acc r
      (h r (List.mem_cons_self r rest))

/-- One upsert of the row of date `d` itself: the `(tgt, d)` lookup becomes
the updated target row, or a fresh target-keyed copy if there was none. -/
theorem dailyUpsert_hit
    (hupd : ∀ d t r, key d (upd t r) = key d t)
    (hmk : ∀ d r, key d (mk r) = (dOf r == d))
    (d : Nat) (l : List α) (rd : α) (hd : dOf rd = d) :
    (dailyUpsert key upd mk dOf l rd).find? (key d)
      = match l.find? (key d) with
        | some t => some (upd t rd)
        | none => some (mk rd) := by
  unfold dailyUpsert
  rw [hd]
  cases hf : l.find? (key d) with
  | some t =>
    simp only [hf]
    exact find?_updateFirst_self (key d) (fun t => upd t rd) l t hf
      (fun y => hupd d y rd)
  | none =>
    simp only [hf]
    rw [List.find?_append, hf]
    have hk : key d (mk rd) = true := by
      rw [hmk, hd]
      simp
    simp [List.find?_cons_of_pos, hk]

/-- The main fold lemma: if exactly the row `rd` of the folded rows has date
`d`, the final `(tgt, d)` lookup is the pre-fold target row updated by `rd`,
or a fresh target-keyed copy of `rd` if there was none. -/
theorem dailyFold_hit
    (hkey : ∀ d d2 x, key d x = true → key d2 x = true → d = d2)
    (hupd : ∀ d t r, key d (upd t r) = key d t)
    (hmk : ∀ d r, key d (mk r) = (dOf r == d))
    (d : Nat) (l1 l2 : List α) (rd : α) (acc : List α)
    (hd : dOf rd = d) (h1 : ∀ r ∈ l1, dOf r ≠ d) (h2 : ∀ r ∈ l2, dOf r ≠ d) :
    ((l1 ++ rd :: l2).foldl (dailyUpsert key upd mk dOf) acc).find? (key d)
      = match acc.find? (key d) with
        | some t => some (upd t rd)
        | none => some (mk rd) := by
  rw [List.foldl_append]
  simp only [List.foldl_cons]
  rw [dailyFold_preserve key upd mk dOf hkey hupd hmk d l2 h2]
  rw [dailyUpsert_hit key upd mk dOf hupd hmk d _ rd hd]
  rw [dailyFold_preserve key upd mk dOf hkey hupd hmk d l1 h1 acc]

end DailyFoldLemmas

/-- Decompose a table around the unique row with key `(src, d)`: in the
`src`-filtered sublist every other row has a different date (keys are
unique). -/
theorem filter_key_decompose {α : Type} (tidOf dOf : α → Nat)
    (L : List α) (src d : Nat) (rs : α)
    (hN : (L.map (fun r => (tidOf r, dOf r))).Nodup)
    (hmem : rs ∈ L) (hts : tidOf rs = src) (hds : dOf rs = d) :
    ∃ l1 l2, L.filter (fun r => tidOf r == src) = l1 ++ rs :: l2
      ∧ (∀ r ∈ l1, dOf r ≠ d) ∧ (∀ r ∈ l2, dOf r ≠ d) := by
  have hmem2 : rs ∈ L.filter (fun r => tidOf r == src) :=
    List.mem_filter.mpr ⟨hmem, by simp [hts]⟩
  obtain ⟨l1, l2, hsplit⟩ := List.append_of_mem hmem2
  have hNf : ((L.filter (fun r => tidOf r == src)).map
      (fun r => (tidOf r, dOf r))).Nodup :=
    List.Nodup.sublist (List.Sublist.map _ (List.filter_sublist L)) hN
  rw [hsplit, List.map_append, List.map_cons, List.nodup_append] at hNf
  obtain ⟨_, h2n, hdisj⟩ := hNf
  have hmemf : ∀ r ∈ l1 ++ rs :: l2, tidOf r = src := by
    intro r hr
    have : r ∈ L.filter (fun r => tidOf r == src) := by rw [hsplit]; exact hr
    simpa using (List.mem_filter.mp this).2
  refine ⟨l1, l2, hsplit, ?_, ?_⟩
  · intro r hr hrd
    have hkey : (tidOf r, dOf r) = (tidOf rs, dOf rs) := by
      rw [hts, hds, hrd, hmemf r (List.mem_append_left _ hr)]
    exact hdisj (List.mem_map_of_mem _ hr)
      (hkey ▸ List.mem_cons_self _ _)
  · intro r hr hrd
    have hkey : (tidOf r, dOf r) = (tidOf rs, dOf rs) := by
      rw [hts, hds, hrd,
        hmemf r (List.mem_append_right _ (List.mem_cons_of_mem _ hr))]
    have hhead : (tidOf rs, dOf rs) ∉ l2.map (fun r => (tidOf r, dOf r)) :=
      (List.nodup_cons.mp h2n).1
    exact hhead (hkey ▸ List.mem_map_of_mem _ hr)

/-- A `find?` is unchanged by a filter that keeps every matching row. -/
theorem find?_filter_keep (p keep : α → Bool) (l : List α)
    (h : ∀ x, p x = true → keep x = true) :
    (l.filter keep).find? p = l.find? p := by
  induction l with
  | nil => rfl
  | cons x xs ih =>
    cases hp : p x
    · cases hk : keep x
      · rw [List.filter_cons_of_neg (by simp [hk]),
          List.find?_cons_of_neg _ (by simp [hp])]
        exact ih
      · rw [List.filter_cons_of_pos (by simp [hk]),
          List.find?_cons_of_neg _ (by simp [hp]),
          List.find?_cons_of_neg _ (by simp [hp])]
        exact ih
    · have hk := h x hp
      rw [List.filter_cons_of_pos (by simp [hk]),
        List.find?_cons_of_pos _ hp, List.find?_cons_of_pos _ hp]

/-- A `find?` over a list filtered by the predicate's negation is `none`. -/
theorem find?_of_filter_neg (p : α → Bool) (l : List α) :
    (l.filter (fun x => ¬ p x)).find? p = none := by
  rw [List.find?_eq_none]
  intro x hx
  have h2 := (List.mem_filter.mp hx).2
  simp only [decide_eq_true_eq] at h2
  simpa using h2

/-- The daily-mention merge loop is the generic upsert fold. -/
theorem mergeMentionsRows_eq_fold (tgt : Nat)
    (rows acc : List ThemeMentionsDaily) :
    mergeMentionsRows tgt rows acc
      = rows.foldl
          (dailyUpsert (kMen tgt) updMen (mkMen tgt) (fun r => r.date)) acc := by
  unfold mergeMentionsRows
  congr 1
  funext l row
  unfold dailyUpsert kMen updMen mkMen
  simp only []
  cases List.find? (fun r => r.theme_id == tgt && r.date == row.date) l <;> rfl

/-- The relation-breakdown merge loop is the generic upsert fold. -/
theorem mergeRelationRows_eq_fold (tgt : Nat)
    (rows acc : List ThemeRelationDaily) :
    mergeRelationRows tgt rows acc
      = rows.foldl
          (dailyUpsert (kRel tgt) updRel (mkRel tgt) (fun r => r.date)) acc := by
  unfold mergeRelationRows
  congr 1
  funext l row
  unfold dailyUpsert kRel updRel mkRel
  simp only []
  cases List.find? (fun r => r.theme_id == tgt && r.date == row.date) l <;> rfl

theorem mentionsRow_def (st : Store) (tid d : Nat) :
    mentionsRow st tid d = st.mentions_daily.find? (kMen tid d) := rfl

theorem relationRow_def (st : Store) (tid d : Nat) :
    relationRow st tid d = st.relation_daily.find? (kRel tid d) := rfl

theorem kMen_key (tgt : Nat) : ∀ d d2 x,
    kMen tgt d x = true → kMen tgt d2 x = true → d = d2 := by
  intro d d2 x h1 h2
  simp only [kMen, Bool.and_eq_true, beq_iff_eq] at h1 h2
  omega

theorem kMen_upd (tgt : Nat) : ∀ d t r, kMen tgt d (updMen t r) = kMen tgt d t :=
  fun _ _ _ => rfl

theorem kMen_mk (tgt : Nat) : ∀ d r, kMen tgt d (mkMen tgt r) = (r.date == d) := by
  intro d r
  simp [kMen, mkMen]

theorem kRel_key (tgt : Nat) : ∀ d d2 x,
    kRel tgt d x = true → kRel tgt d2 x = true → d = d2 := by
  intro d d2 x h1 h2
  simp only [kRel, Bool.and_eq_true, beq_iff_eq] at h1 h2
  omega

theorem kRel_upd (tgt : Nat) : ∀ d t r, kRel tgt d (updRel t r) = kRel tgt d t :=
  fun _ _ _ => rfl

theorem kRel_mk (tgt : Nat) : ∀ d r, kRel tgt d (mkRel tgt r) = (r.date == d) := by
  intro d r
  simp [kRel, mkRel]

/-- Field-wise description of the store after the nine merge steps. -/
theorem mergeResultStore_fields (s : Settings) (st : Store) (src tgt : Nat)
    (source : Theme) :
    (mergeResultStore s st src tgt source).themes
        = st.themes.filter (fun t => ¬ t.id == src)
    ∧ (mergeResultStore s st src tgt source).narratives
        = st.narratives.map
            (fun n => if n.theme_id == src then {n with theme_id := tgt} else n)
    ∧ (mergeResultStore s st src tgt source).aliases
        = (st.aliases ++ copyAliases tgt
            (st.aliases.filter (fun a => a.theme_id == src))
            ((st.aliases.filter (fun a => a.theme_id == tgt)).map
              (fun a => a.«alias»))).filter (fun a => ¬ a.theme_id == src)
    ∧ (mergeResultStore s st src tgt source).mentions_daily
        = (mergeMentionsRows tgt
            (st.mentions_daily.filter (fun r => r.theme_id == src))
            st.mentions_daily).filter (fun r => ¬ r.theme_id == src)
    ∧ (mergeResultStore s st src tgt source).relation_daily
        = (mergeRelationRows tgt
            (st.relation_daily.filter (fun r => r.theme_id == src))
            st.relation_daily).filter (fun r => ¬ r.theme_id == src)
    ∧ (mergeResultStore s st src tgt source).reinforcements
        = (if s.theme_merge_reinforcement_enabled then
            st.reinforcements ++ [⟨canonicalize_label source.canonical_label,
              source.embedding, tgt⟩]
          else st.reinforcements) := by
  unfold mergeResultStore mergeSteps
  by_cases hrein : s.theme_merge_reinforcement_enabled = true <;>
    simp [List.foldl_cons, List.foldl_nil, hrein]

/-- `execute_theme_merge` on two distinct existing themes succeeds with the
step-composed store and the pre-move source narrative count. -/
theorem execute_theme_merge_ok (s : Settings) (st : Store) (src tgt : Nat)
    (source target : Theme) (hne : src ≠ tgt)
    (hsf : findTheme st src = some source)
    (htf : findTheme st tgt = some target) :
    execute_theme_merge s st src tgt
      = .ok (mergeResultStore s st src tgt source, countNarratives st src) := by
  unfold execute_theme_merge execute_theme_merge_with_fault
  rw [if_neg hne, hsf, htf]
  rfl

/-- Reassigning the `src` narratives to `tgt` makes the `tgt` count the sum
of the two original counts. -/
theorem count_map_reassign (src tgt : Nat) (hne : src ≠ tgt)
    (l : List Narrative) :
    ((l.map (fun n => if n.theme_id == src then {n with theme_id := tgt}
        else n)).filter (fun n => n.theme_id == tgt)).length
      = (l.filter (fun n => n.theme_id == src)).length
        + (l.filter (fun n => n.theme_id == tgt)).length := by
  induction l with
  | nil => rfl
  | cons n rest ih =>
    by_cases hs : n.theme_id = src
    · have hbs : (n.theme_id == src) = true := by simp [hs]
      have hbt : (n.theme_id == tgt) = false := by
        simp only [beq_eq_false_iff_ne, ne_eq, hs]
        exact hne
      simp only [List.map_cons, hbs, if_true, List.filter_cons]
      simp only [beq_self_eq_true, if_true, hbt, Bool.false_eq_true, if_false,
        List.length_cons, hbs]
      omega
    · have hbs : (n.theme_id == src) = false := by simp [hs]
      simp only [List.map_cons, hbs, Bool.false_eq_true, if_false,
        List.filter_cons]
      cases hbt : (n.theme_id == tgt) <;>
        simp only [Bool.false_eq_true, if_false, if_true, List.length_cons] <;>
        omega

/-- C2: after `execute_theme_merge(source, target)` succeeds on two distinct
existing topics: the source id no longer exists; the target's narrative
count is the sum of the two pre-merge counts (and the returned value is the
pre-merge source count); a date present in both topics' daily rows ends as
the target's row with summed counts (`updMen`/`updRel`); a date present only
on the source is carried over to the target unchanged (`mkMen`/`mkRel`).
Stated for both date-keyed statistic tables. -/
theorem merge_success_postconditions (s : Settings) (st : Store)
    (src tgt : Nat) (source target : Theme) (hne : src ≠ tgt)
    (hsf : findTheme st src = some source)
    (htf : findTheme st tgt = some target)
    (hm : (mentionsKeys st).Nodup) (hr : (relationKeys st).Nodup) :
    ∃ st2, execute_theme_merge s st src tgt = .ok (st2, countNarratives st src)
      ∧ themeExists st2 src = false
      ∧ countNarratives st2 tgt = countNarratives st src + countNarratives st tgt
      ∧ (∀ d rs rt, mentionsRow st src d = some rs →
          mentionsRow st tgt d = some rt →
          mentionsRow st2 tgt d = some (updMen rt rs))
      ∧ (∀ d rs, mentionsRow st src d = some rs →
          mentionsRow st tgt d = none →
          mentionsRow st2 tgt d = some (mkMen tgt rs))
      ∧ (∀ d rs rt, relationRow st src d = some rs →
          relationRow st tgt d = some rt →
          relationRow st2 tgt d = some (updRel rt rs))
      ∧ (∀ d rs, relationRow st src d = some rs →
          relationRow st tgt d = none →
          relationRow st2 tgt d = some (mkRel tgt rs)) := by
  obtain ⟨hth, hna, hal, hmen, hrel, hrein⟩ :=
    mergeResultStore_fields s st src tgt source
  have hkeepM : ∀ x : ThemeMentionsDaily, ∀ d : Nat, kMen tgt d x = true →
      (decide (¬ (x.theme_id == src) = true)) = true := by
    intro x d hx
    simp only [kMen, Bool.and_eq_true, beq_iff_eq] at hx
    simp only [hx.1, beq_iff_eq, decide_eq_true_eq]
    omega
  have hkeepR : ∀ x : ThemeRelationDaily, ∀ d : Nat, kRel tgt d x = true →
      (decide (¬ (x.theme_id == src) = true)) = true := by
    intro x d hx
    simp only [kRel, Bool.and_eq_true, beq_iff_eq] at hx
    simp only [hx.1, beq_iff_eq, decide_eq_true_eq]
    omega
  have hm2 : (st.mentions_daily.map (fun r => (r.theme_id, r.date))).Nodup := hm
  have hr2 : (st.relation_daily.map (fun r => (r.theme_id, r.date))).Nodup := hr
  refine ⟨mergeResultStore s st src tgt source,
    execute_theme_merge_ok s st src tgt source target hne hsf htf,
    ?_, ?_, ?_, ?_, ?_, ?_⟩
  · unfold themeExists findTheme
    rw [hth, find?_of_filter_neg]
    rfl
  · unfold countNarratives
    rw [hna]
    exact count_map_reassign src tgt hne st.narratives
  · intro d rs rt hrs hrt
    rw [mentionsRow_def] at hrs hrt
    have hmemrs : rs ∈ st.mentions_daily := List.mem_of_find?_eq_some hrs
    have hprops := List.find?_some hrs
    simp only [kMen, Bool.and_eq_true, beq_iff_eq] at hprops
    obtain ⟨l1, l2, hsplit0, h10, h20⟩ :=
      filter_key_decompose (fun r => r.theme_id) (fun r => r.date)
        st.mentions_daily src d rs hm2 hmemrs hprops.1 hprops.2
    have hsplit : st.mentions_daily.filter (fun r => r.theme_id == src)
        = l1 ++ rs :: l2 := hsplit0
    have h1 : ∀ r ∈ l1, r.date ≠ d := h10
    have h2 : ∀ r ∈ l2, r.date ≠ d := h20
    rw [mentionsRow_def, hmen,
      find?_filter_keep (kMen tgt d) _ _ (fun x hx => hkeepM x d hx),
      mergeMentionsRows_eq_fold, hsplit,
      dailyFold_hit (kMen tgt) updMen (mkMen tgt) (fun r => r.date)
        (kMen_key tgt) (kMen_upd tgt) (kMen_mk tgt) d l1 l2 rs
        st.mentions_daily hprops.2 h1 h2, hrt]
  · intro d rs hrs hrt
    rw [mentionsRow_def] at hrs hrt
    have hmemrs : rs ∈ st.mentions_daily := List.mem_of_find?_eq_some hrs
    have hprops := List.find?_some hrs
    simp only [kMen, Bool.and_eq_true, beq_iff_eq] at hprops
    obtain ⟨l1, l2, hsplit0, h10, h20⟩ :=
      filter_key_decompose (fun r => r.theme_id) (fun r => r.date)
        st.mentions_daily src d rs hm2 hmemrs hprops.1 hprops.2
    have hsplit : st.mentions_daily.filter (fun r => r.theme_id == src)
        = l1 ++ rs :: l2 := hsplit0
    have h1 : ∀ r ∈ l1, r.date ≠ d := h10
    have h2 : ∀ r ∈ l2, r.date ≠ d := h20
    rw [mentionsRow_def, hmen,
      find?_filter_keep (kMen tgt d) _ _ (fun x hx => hkeepM x d hx),
      mergeMentionsRows_eq_fold, hsplit,
      dailyFold_hit (kMen tgt) updMen (mkMen tgt) (fun r => r.date)
        (kMen_key tgt) (kMen_upd tgt) (kMen_mk tgt) d l1 l2 rs
        st.mentions_daily hprops.2 h1 h2, hrt]
  · intro d rs rt hrs hrt
    rw [relationRow_def] at hrs hrt
    have hmemrs : rs ∈ st.relation_daily := List.mem_of_find?_eq_some hrs
    have hprops := List.find?_some hrs
    simp only [kRel, Bool.and_eq_true, beq_iff_eq] at hprops
    obtain ⟨l1, l2, hsplit0, h10, h20⟩ :=
      filter_key_decompose (fun r => r.theme_id) (fun r => r.date)
        st.relation_daily src d rs hr2 hmemrs hprops.1 hprops.2
    have hsplit : st.relation_daily.filter (fun r => r.theme_id == src)
        = l1 ++ rs :: l2 := hsplit0
    have h1 : ∀ r ∈ l1, r.date ≠ d := h10
    have h2 : ∀ r ∈ l2, r.date ≠ d := h20
    rw [relationRow_def, hrel,
      find?_filter_keep (kRel tgt d) _ _ (fun x hx => hkeepR x d hx),
      mergeRelationRows_eq_fold, hsplit,
      dailyFold_hit (kRel tgt) updRel (mkRel tgt) (fun r => r.date)
        (kRel_key tgt) (kRel_upd tgt) (kRel_mk tgt) d l1 l2 rs
        st.relation_daily hprops.2 h1 h2, hrt]
  · intro d rs hrs hrt
    rw [relationRow_def] at hrs hrt
    have hmemrs : rs ∈ st.relation_daily := List.mem_of_find?_eq_some hrs
    have hprops := List.find?_some hrs
    simp only [kRel, Bool.and_eq_true, beq_iff_eq] at hprops
    obtain ⟨l1, l2, hsplit0, h10, h20⟩ :=
      filter_key_decompose (fun r => r.theme_id) (fun r => r.date)
        st.relation_daily src d rs hr2 hmemrs hprops.1 hprops.2
    have hsplit : st.relation_daily.filter (fun r => r.theme_id == src)
        = l1 ++ rs :: l2 := hsplit0
    have h1 : ∀ r ∈ l1, r.date ≠ d := h10
    have h2 : ∀ r ∈ l2, r.date ≠ d := h20
    rw [relationRow_def, hrel,
      find?_filter_keep (kRel tgt d) _ _ (fun x hx => hkeepR x d hx),
      mergeRelationRows_eq_fold, hsplit,
      dailyFold_hit (kRel tgt) updRel (mkRel tgt) (fun r => r.date)
        (kRel_key tgt) (kRel_upd tgt) (kRel_mk tgt) d l1 l2 rs
        st.relation_daily hprops.2 h1 h2, hrt]

/-- Witness for C2 at a concrete store (overlapping date 10, source-only
dates 11 and 12). -/
theorem merge_success_postconditions_witness :
    ∃ st2, execute_theme_merge defaultSettings mergeDemoStore 1 2
        = .ok (st2, countNarratives mergeDemoStore 1)
      ∧ themeExists st2 1 = false
      ∧ countNarratives st2 2
          = countNarratives mergeDemoStore 1 + countNarratives mergeDemoStore 2
      ∧ (∀ d rs rt, mentionsRow mergeDemoStore 1 d = some rs →
          mentionsRow mergeDemoStore 2 d = some rt →
          mentionsRow st2 2 d = some (updMen rt rs))
      ∧ (∀ d rs, mentionsRow mergeDemoStore 1 d = some rs →
          mentionsRow mergeDemoStore 2 d = none →
          mentionsRow st2 2 d = some (mkMen 2 rs))
      ∧ (∀ d rs rt, relationRow mergeDemoStore 1 d = some rs →
          relationRow mergeDemoStore 2 d = some rt →
          relationRow st2 2 d = some (updRel rt rs))
      ∧ (∀ d rs, relationRow mergeDemoStore 1 d = some rs →
          relationRow mergeDemoStore 2 d = none →
          relationRow st2 2 d = some (mkRel 2 rs)) :=
  merge_success_postconditions defaultSettings mergeDemoStore 1 2
    ⟨1, "a", none⟩ ⟨2, "b", none⟩ (by decide) (by rfl) (by rfl)
    (by decide) (by decide)

/-- C8 amended: a candidate pair whose canonical labels hit non-empty,
different collections of the predefined entity groups is always dropped by
the candidate finder's dedupe/conflict filter, regardless of its similarity
score: every pair handed to the clustering step references two distinct
existing themes whose canonical labels do not conflict.  (Per the
counterexample, the guarantee does not extend to co-membership in a returned
MergeSet, which transitive clustering through a third theme can produce.) -/
theorem conflicting_pairs_dropped (st : Store) (all_pairs : List (Nat × Nat))
    (a b : Nat) (h : (a, b) ∈ uniqueFilteredPairs st all_pairs) :
    a ≠ b ∧ ∃ ta tb, findTheme st a = some ta ∧ findTheme st b = some tb ∧
      _labels_conflict_entities (canonicalize_label ta.canonical_label)
        (canonicalize_label tb.canonical_label) = false :=
  ufpAux_conflict_free st all_pairs [] a b h

/-- Witness for the amended C8 on the counterexample store's surviving pair
(1, 3). -/
theorem conflicting_pairs_dropped_witness :
    (1 : Nat) ≠ 3 ∧ ∃ ta tb, findTheme entityCexStore 1 = some ta ∧
      findTheme entityCexStore 3 = some tb ∧
      _labels_conflict_entities (canonicalize_label ta.canonical_label)
        (canonicalize_label tb.canonical_label) = false :=
  conflicting_pairs_dropped entityCexStore [(1, 2), (1, 3), (2, 3)] 1 3
    (by decide)

/-! ## C5 — resolving the same label twice never creates two topics -/

theorem resolve_stage1 (env : Env) (s : Settings) (st : Store) (label : String)
    (t : Theme)
    (h1 : findThemeByCanonical st (canonicalize_label label) = some t) :
    resolve_theme env s st label = (st, t) := by
  simp only [resolve_theme]
  rw [h1]

theorem resolve_stage2 (env : Env) (s : Settings) (st : Store) (label : String)
    (t : Theme)
    (h1 : findThemeByCanonical st (canonicalize_label label) = none)
    (h2 : _find_theme_by_alias st (canonicalize_label label) = some t) :
    resolve_theme env s st label
      = (ensure_alias st t.id label "system" (some 1), t) := by
  simp only [resolve_theme]
  rw [h1, h2]

theorem resolve_stage3 (env : Env) (s : Settings) (st : Store) (label : String)
    (t : Theme)
    (h1 : findThemeByCanonical st (canonicalize_label label) = none)
    (h2 : _find_theme_by_alias st (canonicalize_label label) = none)
    (h3 : _find_theme_by_merge_reinforcement env s st label = some t) :
    resolve_theme env s st label
      = (ensure_alias st t.id label "system" (some (98 / 100)), t) := by
  simp only [resolve_theme]
  rw [h1, h2, h3]

theorem resolve_stage4 (env : Env) (s : Settings) (st : Store) (label : String)
    (t : Theme)
    (h1 : findThemeByCanonical st (canonicalize_label label) = none)
    (h2 : _find_theme_by_alias st (canonicalize_label label) = none)
    (h3 : _find_theme_by_merge_reinforcement env s st label = none)
    (h4 : _find_similar_theme env s st label = some t) :
    resolve_theme env s st label
      = (ensure_alias st t.id label "system" (some (95 / 100)), t) := by
  simp only [resolve_theme]
  rw [h1, h2, h3, h4]

theorem resolve_stage5 (env : Env) (s : Settings) (st : Store) (label : String)
    (m : Theme) (ms : List Theme)
    (h1 : findThemeByCanonical st (canonicalize_label label) = none)
    (h2 : _find_theme_by_alias st (canonicalize_label label) = none)
    (h3 : _find_theme_by_merge_reinforcement env s st label = none)
    (h4 : _find_similar_theme env s st label = none)
    (hsub : st.themes.filter (fun ot =>
      (strIn ot.canonical_label (canonicalize_label label)
        || strIn (canonicalize_label label) ot.canonical_label)
      && ot.canonical_label != canonicalize_label label) = m :: ms) :
    resolve_theme env s st label
      = (ensure_alias st
          (ms.foldl (fun best x =>
            if x.canonical_label.length < best.canonical_label.length then x
            else best) m).id label "system" (some (9 / 10)),
         ms.foldl (fun best x =>
            if x.canonical_label.length < best.canonical_label.length then x
            else best) m) := by
  simp only [resolve_theme]
  rw [h1, h2, h3, h4, hsub]

theorem resolve_stage6 (env : Env) (s : Settings) (st : Store) (label : String)
    (h1 : findThemeByCanonical st (canonicalize_label label) = none)
    (h2 : _find_theme_by_alias st (canonicalize_label label) = none)
    (h3 : _find_theme_by_merge_reinforcement env s st label = none)
    (h4 : _find_similar_theme env s st label = none)
    (hsub : st.themes.filter (fun ot =>
      (strIn ot.canonical_label (canonicalize_label label)
        || strIn (canonicalize_label label) ot.canonical_label)
      && ot.canonical_label != canonicalize_label label) = []) :
    resolve_theme env s st label
      = ({st with
            themes := st.themes ++ [⟨st.next_theme_id, canonicalize_label label,
              if env.embedAvailable then
                match env.embed [canonicalize_label label] with
                | some (e0 :: _) => if e0 = [] then none else some e0
                | _ => none
              else none⟩],
            next_theme_id := st.next_theme_id + 1},
         ⟨st.next_theme_id, canonicalize_label label,
          if env.embedAvailable then
            match env.embed [canonicalize_label label] with
            | some (e0 :: _) => if e0 = [] then none else some e0
            | _ => none
          else none⟩) := by
  simp only [resolve_theme]
  rw [h1, h2, h3, h4, hsub]

/-- A theme found by id round-trips through its own id. -/
theorem findTheme_roundtrip (st : Store) (tid : Nat) (t : Theme)
    (h : findTheme st tid = some t) : findTheme st t.id = some t := by
  have hid : t.id = tid := by simpa using List.find?_some h
  rw [findTheme, hid]
  exact h

/-- Any theme of the store can be found by its id (the found row carries the
same id, though on ill-formed stores it need not be the same row). -/
theorem findTheme_of_mem (st : Store) (t : Theme) (h : t ∈ st.themes) :
    ∃ u, findTheme st t.id = some u ∧ u.id = t.id := by
  cases hf : findTheme st t.id with
  | none =>
    rw [findTheme, List.find?_eq_none] at hf
    exact absurd (by simp : (t.id == t.id) = true) (hf t h)
  | some u =>
    exact ⟨u, rfl, by simpa using List.find?_some hf⟩

/-- If the alias lookup returned `none`, no alias row carries the canonical
string (on alias-live stores). -/
theorem aliasRow_none_of_live (st : Store) (canon : String)
    (h2 : _find_theme_by_alias st canon = none)
    (hlive : ∀ a ∈ st.aliases, (findTheme st a.theme_id).isSome = true) :
    st.aliases.find? (fun a => a.«alias» == canon) = none := by
  cases hf : st.aliases.find? (fun a => a.«alias» == canon) with
  | none => rfl
  | some row =>
    unfold _find_theme_by_alias at h2
    rw [hf] at h2
    have h3 : findTheme st row.theme_id = none := h2
    have hs := hlive row (List.mem_of_find?_eq_some hf)
    rw [h3] at hs
    simp at hs

theorem alias_all_ne_of_none (st : Store) (canon : String)
    (h : st.aliases.find? (fun a => a.«alias» == canon) = none) :
    ∀ a ∈ st.aliases, a.«alias» ≠ canon := by
  rw [List.find?_eq_none] at h
  intro a ha heq
  exact h a ha (by simp [heq])

/-- `ensure_alias` appends when no alias row carries the canonical string. -/
theorem ensure_alias_append (st : Store) (tid : Nat) (label cb : String)
    (conf : Option ℚ)
    (h : ∀ a ∈ st.aliases, a.«alias» ≠ canonicalize_label label) :
    ensure_alias st tid label cb conf
      = {st with aliases := st.aliases
          ++ [⟨tid, canonicalize_label label, cb, conf⟩]} := by
  simp only [ensure_alias]
  have hn : st.aliases.find?
      (fun a => a.theme_id == tid && a.«alias» == canonicalize_label label)
      = none := by
    rw [List.find?_eq_none]
    intro a ha
    simp only [Bool.and_eq_true, beq_iff_eq, not_and]
    intro _ heq
    exact h a ha heq
  rw [hn]

/-- `ensure_alias` is a no-op when the row is already present. -/
theorem ensure_alias_noop (st : Store) (tid : Nat) (label cb : String)
    (conf : Option ℚ) (row : ThemeAlias)
    (hmem : row ∈ st.aliases) (hrid : row.theme_id = tid)
    (hral : row.«alias» = canonicalize_label label) :
    ensure_alias st tid label cb conf = st := by
  simp only [ensure_alias]
  cases hf : st.aliases.find?
      (fun a => a.theme_id == tid && a.«alias» == canonicalize_label label) with
  | some _ => rfl
  | none =>
    rw [List.find?_eq_none] at hf
    exact absurd (by simp [hrid, hral]) (hf row hmem)

/-- Structure of a successful alias-stage lookup. -/
theorem alias_hit_struct (st : Store) (canon : String) (t : Theme)
    (h : _find_theme_by_alias st canon = some t) :
    ∃ row ∈ st.aliases, row.«alias» = canon ∧ row.theme_id = t.id
      ∧ findTheme st t.id = some t := by
  unfold _find_theme_by_alias at h
  cases hf : st.aliases.find? (fun a => a.«alias» == canon) with
  | none => rw [hf] at h; exact absurd h (by simp)
  | some row =>
    rw [hf] at h
    have hid : t.id = row.theme_id := by simpa using List.find?_some h
    exact ⟨row, List.mem_of_find?_eq_some hf,
      by simpa using List.find?_some hf, hid.symm,
      findTheme_roundtrip st row.theme_id t h⟩

/-- Appending the fresh alias row makes it the alias lookup's result. -/
theorem append_alias_find (st : Store) (new : ThemeAlias) (canon : String)
    (hnone : st.aliases.find? (fun a => a.«alias» == canon) = none)
    (hal : new.«alias» = canon) :
    (st.aliases ++ [new]).find? (fun a => a.«alias» == canon) = some new := by
  rw [List.find?_append, hnone]
  rw [List.find?_cons_of_pos _ (by simp [hal])]
  rfl

/-- A fold that only ever replaces its pick by the current list element picks
an element of the list (or keeps the initial pick). -/
theorem foldl_pick_mem {β : Type} (f : (Option Theme × β) → Theme → (Option Theme × β))
    (hf : ∀ acc t, (f acc t).1 = acc.1 ∨ (f acc t).1 = some t)
    (l : List Theme) (init : Option Theme × β) (t : Theme)
    (h : (l.foldl f init).1 = some t) :
    init.1 = some t ∨ t ∈ l := by
  induction l generalizing init with
  | nil => exact Or.inl h
  | cons x xs ih =>
    simp only [List.foldl_cons] at h
    rcases ih (f init x) h with h2 | h2
    · rcases hf init x with h3 | h3
      · exact Or.inl (h3 ▸ h2)
      · rw [h3] at h2
        exact Or.inr (by simpa using Or.inl (Option.some.inj h2).symm)
    · exact Or.inr (List.mem_cons_of_mem _ h2)

/-- A reinforcement-stage hit is a theme that its own id looks up. -/
theorem reinf_findTheme (env : Env) (s : Settings) (st : Store)
    (label : String) (t : Theme)
    (h : _find_theme_by_merge_reinforcement env s st label = some t) :
    findTheme st t.id = some t := by
  simp only [_find_theme_by_merge_reinforcement] at h
  split at h
  · exact absurd h (by simp)
  · split at h
    · next t' heq =>
      obtain rfl := Option.some.inj h
      split at heq
      · next tid _ => exact findTheme_roundtrip st tid t' heq
      · exact absurd heq (by simp)
    · split at h
      · exact absurd h (by simp)
      · split at h
        · exact absurd h (by simp)
        · split at h
          · exact absurd h (by simp)
          · exact absurd h (by simp)
          · split at h
            · exact absurd h (by simp)
            · split at h
              · exact absurd h (by simp)
              · next tid _ => exact findTheme_roundtrip st tid t h

/-- The embedding-similarity argmax picks one of the store's themes. -/
theorem similar_embedding_mem (env : Env) (s : Settings) (st : Store)
    (label : String) (t : Theme)
    (h : _find_similar_theme_by_embedding env s st label = some t) :
    t ∈ st.themes := by
  simp only [_find_similar_theme_by_embedding] at h
  split at h
  · exact absurd h (by simp)
  · split at h
    · exact absurd h (by simp)
    · split at h
      · exact absurd h (by simp)
      · split at h
        · exact absurd h (by simp)
        · exact absurd h (by simp)
        · next e0 tl heq0 =>
          split at h
          · exact absurd h (by simp)
          · have hm := foldl_pick_mem _ ?step _ _ t h
            case step =>
              intro acc x
              cases hx : x.embedding with
              | none => exact Or.inl rfl
              | some e =>
                simp only [hx]
                by_cases he : e = []
                · exact Or.inl (by simp [he])
                · by_cases hlt : acc.2.lt (simOf e0 e) = true
                  · exact Or.inr (by simp [he, hlt])
                  · exact Or.inl (by simp [he, hlt])
            rcases hm with h2 | h2
            · simp at h2
            · exact (List.mem_filter.mp h2).1

/-- The text-similarity argmax picks one of the store's themes. -/
theorem similar_text_mem (s : Settings) (st : Store) (label : String)
    (t : Theme)
    (h : _find_similar_theme_by_text s st label = some t) :
    t ∈ st.themes := by
  simp only [_find_similar_theme_by_text] at h
  split at h
  · exact absurd h (by simp)
  · split at h
    · exact absurd h (by simp)
    · split at h
      · exact absurd h (by simp)
      · have hm := foldl_pick_mem _ ?step _ _ t h
        case step =>
          intro acc x
          by_cases he : _token_set x.canonical_label = ∅
          · exact Or.inl (by simp [he])
          · by_cases hlt : acc.2 < _dice_similarity (_token_set label)
                (_token_set x.canonical_label)
            · exact Or.inr (by simp [he, hlt])
            · exact Or.inl (by simp [he, hlt])
        rcases hm with h2 | h2
        · simp at h2
        · exact h2

/-- A similarity-stage hit is one of the store's themes. -/
theorem similar_mem (env : Env) (s : Settings) (st : Store) (label : String)
    (t : Theme)
    (h : _find_similar_theme env s st label = some t) :
    t ∈ st.themes := by
  unfold _find_similar_theme at h
  split at h
  · next u heq =>
    obtain rfl := Option.some.inj h
    exact similar_embedding_mem env s st label u heq
  · exact similar_text_mem s st label t h

/-- The shortest-label fold of the substring stage picks a candidate. -/
theorem foldl_minlen_mem (m : Theme) (ms : List Theme) :
    ms.foldl (fun best x =>
      if x.canonical_label.length < best.canonical_label.length then x
      else best) m ∈ m :: ms := by
  induction ms generalizing m with
  | nil => exact List.mem_cons_self _ _
  | cons y ys ih =>
    simp only [List.foldl_cons]
    rcases List.mem_cons.mp
        (ih (if y.canonical_label.length < m.canonical_label.length then y
          else m)) with h | h
    · by_cases hc : y.canonical_label.length < m.canonical_label.length
      · rw [if_pos hc] at h ⊢
        rw [h]
        exact List.mem_cons_of_mem _ (List.mem_cons_self _ _)
      · rw [if_neg hc] at h ⊢
        rw [h]
        exact List.mem_cons_self _ _
    · exact List.mem_cons_of_mem _ (List.mem_cons_of_mem _ h)

/-- Common second-call argument for the alias-adding stages (reinforcement,
similarity, substring): the first call added the canonical label as an alias
of the returned theme, so the second call resolves through the alias stage
to the same theme id without touching the theme table. -/
theorem resolve_second_call_alias (env : Env) (s : Settings) (st : Store)
    (label : String) (t u : Theme) (conf : Option ℚ)
    (h1 : findThemeByCanonical st (canonicalize_label label) = none)
    (hnoalias : st.aliases.find?
      (fun a => a.«alias» == canonicalize_label label) = none)
    (e1 : resolve_theme env s st label
      = (ensure_alias st t.id label "system" conf, t))
    (hfu : findTheme st t.id = some u) (huid : u.id = t.id) :
    (resolve_theme env s (resolve_theme env s st label).1 label).2.id
      = (resolve_theme env s st label).2.id
    ∧ (resolve_theme env s (resolve_theme env s st label).1 label).1.themes.length
      = (resolve_theme env s st label).1.themes.length := by
  have hne := alias_all_ne_of_none st (canonicalize_label label) hnoalias
  have eens : ensure_alias st t.id label "system" conf
      = {st with aliases := st.aliases
          ++ [⟨t.id, canonicalize_label label, "system", conf⟩]} :=
    ensure_alias_append st t.id label "system" conf hne
  have h1' : findThemeByCanonical
      {st with aliases := st.aliases
        ++ [⟨t.id, canonicalize_label label, "system", conf⟩]}
      (canonicalize_label label) = none := h1
  have hfind2 : _find_theme_by_alias
      {st with aliases := st.aliases
        ++ [⟨t.id, canonicalize_label label, "system", conf⟩]}
      (canonicalize_label label) = some u := by
    unfold _find_theme_by_alias
    rw [show ({st with aliases := st.aliases
        ++ [⟨t.id, canonicalize_label label, "system", conf⟩]} : Store).aliases
      = st.aliases ++ [⟨t.id, canonicalize_label label, "system", conf⟩]
      from rfl]
    rw [append_alias_find st ⟨t.id, canonicalize_label label, "system", conf⟩
      (canonicalize_label label) hnoalias rfl]
    exact hfu
  have hmemnew : (⟨t.id, canonicalize_label label, "system", conf⟩ : ThemeAlias)
      ∈ ({st with aliases := st.aliases
        ++ [⟨t.id, canonicalize_label label, "system", conf⟩]} : Store).aliases :=
    List.mem_append_right _ (List.mem_cons_self _ _)
  have hnoop2 : ensure_alias
      {st with aliases := st.aliases
        ++ [⟨t.id, canonicalize_label label, "system", conf⟩]}
      u.id label "system" (some 1)
      = {st with aliases := st.aliases
        ++ [⟨t.id, canonicalize_label label, "system", conf⟩]} :=
    ensure_alias_noop _ u.id label "system" (some 1)
      ⟨t.id, canonicalize_label label, "system", conf⟩ hmemnew huid.symm rfl
  have e2 : resolve_theme env s
      {st with aliases := st.aliases
        ++ [⟨t.id, canonicalize_label label, "system", conf⟩]} label
      = ({st with aliases := st.aliases
          ++ [⟨t.id, canonicalize_label label, "system", conf⟩]}, u) := by
    rw [resolve_stage2 env s _ label u h1' hfind2, hnoop2]
  rw [e1, eens]
  constructor
  · rw [show ((({st with aliases := st.aliases
        ++ [⟨t.id, canonicalize_label label, "system", conf⟩]} : Store), t)).1
        = {st with aliases := st.aliases
          ++ [⟨t.id, canonicalize_label label, "system", conf⟩]} from rfl, e2]
    exact huid
  · rw [show ((({st with aliases := st.aliases
        ++ [⟨t.id, canonicalize_label label, "system", conf⟩]} : Store), t)).1
        = {st with aliases := st.aliases
          ++ [⟨t.id, canonicalize_label label, "system", conf⟩]} from rfl, e2]

/-- C5: resolving the same exact label twice never creates two topics — the
second call returns a topic with the first call's id and the number of
topics does not grow on the second call.  Quantified over every environment,
configuration and alias-live store (each alias row references an existing
theme — the store invariant under which the modelled `find?` queries agree
with the source's `one_or_none`/`one`). -/
theorem resolve_same_label_twice (env : Env) (s : Settings) (st : Store)
    (label : String)
    (hlive : ∀ a ∈ st.aliases, (findTheme st a.theme_id).isSome = true) :
    (resolve_theme env s (resolve_theme env s st label).1 label).2.id
      = (resolve_theme env s st label).2.id
    ∧ (resolve_theme env s (resolve_theme env s st label).1 label).1.themes.length
      = (resolve_theme env s st label).1.themes.length := by
  cases h1 : findThemeByCanonical st (canonicalize_label label) with
  | some t =>
    have e1 := resolve_stage1 env s st label t h1
    simp [e1]
  | none =>
  cases h2 : _find_theme_by_alias st (canonicalize_label label) with
  | some t =>
    obtain ⟨row, hrmem, hral, hrid, hft⟩ :=
      alias_hit_struct st (canonicalize_label label) t h2
    have hnoop : ensure_alias st t.id label "system" (some 1) = st :=
      ensure_alias_noop st t.id label "system" (some 1) row hrmem hrid hral
    have e1 : resolve_theme env s st label = (st, t) := by
      rw [resolve_stage2 env s st label t h1 h2, hnoop]
    simp [e1]
  | none =>
  have hnoalias : st.aliases.find?
      (fun a => a.«alias» == canonicalize_label label) = none :=
    aliasRow_none_of_live st (canonicalize_label label) h2 hlive
  cases h3 : _find_theme_by_merge_reinforcement env s st label with
  | some t =>
    exact resolve_second_call_alias env s st label t t (some (98 / 100)) h1
      hnoalias (resolve_stage3 env s st label t h1 h2 h3)
      (reinf_findTheme env s st label t h3) rfl
  | none =>
  cases h4 : _find_similar_theme env s st label with
  | some t =>
    obtain ⟨u, hfu, huid⟩ :=
      findTheme_of_mem st t (similar_mem env s st label t h4)
    exact resolve_second_call_alias env s st label t u (some (95 / 100)) h1
      hnoalias (resolve_stage4 env s st label t h1 h2 h3 h4) hfu huid
  | none =>
  cases hsub : st.themes.filter (fun ot =>
      (strIn ot.canonical_label (canonicalize_label label)
        || strIn (canonicalize_label label) ot.canonical_label)
      && ot.canonical_label != canonicalize_label label) with
  | cons m ms =>
    have hbmem : (ms.foldl (fun best x =>
        if x.canonical_label.length < best.canonical_label.length then x
        else best) m) ∈ st.themes := by
      have h5 := foldl_minlen_mem m ms
      rw [← hsub] at h5
      exact (List.mem_filter.mp h5).1
    obtain ⟨u, hfu, huid⟩ := findTheme_of_mem st _ hbmem
    exact resolve_second_call_alias env s st label _ u (some (9 / 10)) h1
      hnoalias (resolve_stage5 env s st label m ms h1 h2 h3 h4 hsub) hfu huid
  | nil =>
    have e1 := resolve_stage6 env s st label h1 h2 h3 h4 hsub
    have hstage1 : findThemeByCanonical
        ({st with
          themes := st.themes ++ [⟨st.next_theme_id, canonicalize_label label,
            if env.embedAvailable then
              match env.embed [canonicalize_label label] with
              | some (e0 :: _) => if e0 = [] then none else some e0
              | _ => none
            else none⟩],
          next_theme_id := st.next_theme_id + 1} : Store)
        (canonicalize_label label)
        = some ⟨st.next_theme_id, canonicalize_label label,
            if env.embedAvailable then
              match env.embed [canonicalize_label label] with
              | some (e0 :: _) => if e0 = [] then none else some e0
              | _ => none
            else none⟩ := by
      unfold findThemeByCanonical at h1 ⊢
      rw [show ({st with
          themes := st.themes ++ [⟨st.next_theme_id, canonicalize_label label,
            if env.embedAvailable then
              match env.embed [canonicalize_label label] with
              | some (e0 :: _) => if e0 = [] then none else some e0
              | _ => none
            else none⟩],
          next_theme_id := st.next_theme_id + 1} : Store).themes
        = st.themes ++ [⟨st.next_theme_id, canonicalize_label label,
            if env.embedAvailable then
              match env.embed [canonicalize_label label] with
              | some (e0 :: _) => if e0 = [] then none else some e0
              | _ => none
            else none⟩] from rfl]
      rw [List.find?_append, h1]
      rw [List.find?_cons_of_pos _ (by simp)]
      rfl
    have e2 := resolve_stage1 env s _ label _ hstage1
    rw [e1]
    constructor
    · rw [show ((({st with
          themes := st.themes ++ [⟨st.next_theme_id, canonicalize_label label,
            if env.embedAvailable then
              match env.embed [canonicalize_label label] with
              | some (e0 :: _) => if e0 = [] then none else some e0
              | _ => none
            else none⟩],
          next_theme_id := st.next_theme_id + 1} : Store),
          (⟨st.next_theme_id, canonicalize_label label,
            if env.embedAvailable then
              match env.embed [canonicalize_label label] with
              | some (e0 :: _) => if e0 = [] then none else some e0
              | _ => none
            else none⟩ : Theme))).1
        = {st with
            themes := st.themes ++ [⟨st.next_theme_id, canonicalize_label label,
              if env.embedAvailable then
                match env.embed [canonicalize_label label] with
                | some (e0 :: _) => if e0 = [] then none else some e0
                | _ => none
              else none⟩],
            next_theme_id := st.next_theme_id + 1} from rfl, e2]
    · rw [show ((({st with
          themes := st.themes ++ [⟨st.next_theme_id, canonicalize_label label,
            if env.embedAvailable then
              match env.embed [canonicalize_label label] with
              | some (e0 :: _) => if e0 = [] then none else some e0
              | _ => none
            else none⟩],
          next_theme_id := st.next_theme_id + 1} : Store),
          (⟨st.next_theme_id, canonicalize_label label,
            if env.embedAvailable then
              match env.embed [canonicalize_label label] with
              | some (e0 :: _) => if e0 = [] then none else some e0
              | _ => none
            else none⟩ : Theme))).1
        = {st with
            themes := st.themes ++ [⟨st.next_theme_id, canonicalize_label label,
              if env.embedAvailable then
                match env.embed [canonicalize_label label] with
                | some (e0 :: _) => if e0 = [] then none else some e0
                | _ => none
              else none⟩],
            next_theme_id := st.next_theme_id + 1} from rfl, e2]

/-- Witness for C5: resolving "byd" twice against the empty store (the first
call creates the topic, the second finds it). -/
theorem resolve_same_label_twice_witness :
    (resolve_theme noEmbedEnv defaultSettings
        (resolve_theme noEmbedEnv defaultSettings {} "byd").1 "byd").2.id
      = (resolve_theme noEmbedEnv defaultSettings {} "byd").2.id
    ∧ (resolve_theme noEmbedEnv defaultSettings
        (resolve_theme noEmbedEnv defaultSettings {} "byd").1 "byd").1.themes.length
      = (resolve_theme noEmbedEnv defaultSettings {} "byd").1.themes.length :=
  resolve_same_label_twice noEmbedEnv defaultSettings {} "byd"
    (fun a ha => absurd ha (List.not_mem_nil a))

/-! ## C4 — a merge reinforcement resolves future labels to the target -/

/-- Every alias copied to the target carries an alias string that already
existed on some source alias row. -/
theorem copyAliases_mem (tgt : Nat) (l : List ThemeAlias) (ex : List String)
    (a : ThemeAlias) (h : a ∈ copyAliases tgt l ex) :
    ∃ al ∈ l, a.«alias» = al.«alias» := by
  induction l generalizing ex with
  | nil => simp [copyAliases] at h
  | cons al rest ih =>
    unfold copyAliases at h
    by_cases hc : ex.contains al.«alias» = true
    · rw [if_pos hc] at h
      obtain ⟨al2, hmem, heq⟩ := ih _ h
      exact ⟨al2, List.mem_cons_of_mem _ hmem, heq⟩
    · rw [if_neg hc] at h
      rcases List.mem_cons.mp h with heq | hmem
      · exact ⟨al, List.mem_cons_self _ _, by rw [heq]⟩
      · obtain ⟨al2, hmem2, heq⟩ := ih _ hmem
        exact ⟨al2, List.mem_cons_of_mem _ hmem2, heq⟩

/-- `ensure_alias` never touches the theme table. -/
theorem ensure_alias_themes (st : Store) (tid : Nat) (label cb : String)
    (conf : Option ℚ) :
    (ensure_alias st tid label cb conf).themes = st.themes := by
  simp only [ensure_alias]
  cases st.aliases.find?
      (fun a => a.theme_id == tid && a.«alias» == canonicalize_label label) <;>
    rfl

/-- C4: after a successful merge (with reinforcement recording enabled), the
reinforcement record (canonicalized source label, source embedding, target
id) has been appended, and every later label with the source topic's
canonical form resolves to the target through the reinforcement exact-match
stage: the canonical-label and alias stages miss, the exact reinforcement
lookup yields the target id, and the resolver returns a theme with the
target's id without creating any topic.  The store hypotheses are the
well-formedness invariants: unique canonical labels (`huniq`), the source
label stored in canonical form (`hcanon`), and no alias row carrying the
source's canonical label (`halias` — resolver-created stores never alias an
existing topic's canonical label). -/
theorem merge_reinforcement_resolves_label (env : Env) (s : Settings)
    (st : Store) (src tgt : Nat) (source target : Theme) (L : String)
    (hrein : s.theme_merge_reinforcement_enabled = true)
    (hne : src ≠ tgt)
    (hsf : findTheme st src = some source)
    (htf : findTheme st tgt = some target)
    (hcanon : canonicalize_label source.canonical_label
      = source.canonical_label)
    (huniq : ∀ t ∈ st.themes, t.canonical_label = source.canonical_label
      → t.id = src)
    (halias : ∀ a ∈ st.aliases, a.«alias» ≠ source.canonical_label)
    (hL : canonicalize_label L = source.canonical_label) :
    ∃ st2, execute_theme_merge s st src tgt
        = .ok (st2, countNarratives st src)
      ∧ st2.reinforcements = st.reinforcements
          ++ [⟨source.canonical_label, source.embedding, tgt⟩]
      ∧ findThemeByCanonical st2 (canonicalize_label L) = none
      ∧ _find_theme_by_alias st2 (canonicalize_label L) = none
      ∧ reinforcementExactTarget st2 (canonicalize_label L) = some tgt
      ∧ (∃ u, _find_theme_by_merge_reinforcement env s st2 L = some u
          ∧ u.id = tgt)
      ∧ (resolve_theme env s st2 L).2.id = tgt
      ∧ (resolve_theme env s st2 L).1.themes = st2.themes := by
  obtain ⟨hth, hna, hal, hmen, hrel, hreinf⟩ :=
    mergeResultStore_fields s st src tgt source
  rw [if_pos hrein, hcanon] at hreinf
  have htgt_src : target.id = tgt := by simpa using List.find?_some htf
  -- stage 1 misses: the only theme with the source's canonical label was
  -- the deleted source
  have hstage1 : findThemeByCanonical (mergeResultStore s st src tgt source)
      (canonicalize_label L) = none := by
    unfold findThemeByCanonical
    rw [hth, List.find?_eq_none]
    intro t ht
    have hmem := List.mem_filter.mp ht
    have hid : ¬ (t.id == src) = true := by
      have := hmem.2
      simp only [decide_eq_true_eq] at this
      exact this
    intro hlb
    simp only [beq_iff_eq, hL] at hlb
    exact hid (by simp [huniq t hmem.1 hlb])
  -- stage 2 misses: no surviving or copied alias carries the label
  have hstage2find : (mergeResultStore s st src tgt source).aliases.find?
      (fun a => a.«alias» == canonicalize_label L) = none := by
    rw [hal, List.find?_eq_none]
    intro a ha
    have hmem := (List.mem_filter.mp ha).1
    simp only [beq_iff_eq, hL]
    rcases List.mem_append.mp hmem with hin | hin
    · exact halias a hin
    · obtain ⟨al, hmemal, heq⟩ := copyAliases_mem tgt _ _ a hin
      rw [heq]
      exact halias al (List.mem_filter.mp hmemal).1
  have hstage2 : _find_theme_by_alias (mergeResultStore s st src tgt source)
      (canonicalize_label L) = none := by
    unfold _find_theme_by_alias
    rw [hstage2find]
  -- stage 3 exact lookup returns the target id
  have hstage3 : reinforcementExactTarget (mergeResultStore s st src tgt source)
      (canonicalize_label L) = some tgt := by
    unfold reinforcementExactTarget
    rw [hreinf, List.reverse_append]
    simp only [List.reverse_cons, List.reverse_nil, List.nil_append,
      List.singleton_append]
    rw [List.find?_cons_of_pos _ (by simp [hL])]
    rfl
  -- the target is still in the store
  have htmem : target ∈ (mergeResultStore s st src tgt source).themes := by
    rw [hth]
    exact List.mem_filter.mpr ⟨List.mem_of_find?_eq_some htf,
      by simp [htgt_src, Ne.symm hne]⟩
  have hfu : ∃ u, findTheme (mergeResultStore s st src tgt source) tgt
      = some u ∧ u.id = tgt := by
    cases hf : findTheme (mergeResultStore s st src tgt source) tgt with
    | none =>
      rw [findTheme, List.find?_eq_none] at hf
      exact absurd (by simp [htgt_src]) (hf target htmem)
    | some u =>
      exact ⟨u, rfl, by simpa using List.find?_some hf⟩
  obtain ⟨u, hfu2, huid⟩ := hfu
  have hstage3full : _find_theme_by_merge_reinforcement env s
      (mergeResultStore s st src tgt source) L = some u := by
    simp only [_find_theme_by_merge_reinforcement, hrein, not_true,
      Bool.true_eq_false, if_false, hstage3, hfu2]
  have hresolve : resolve_theme env s (mergeResultStore s st src tgt source) L
      = (ensure_alias (mergeResultStore s st src tgt source) u.id L "system"
          (some (98 / 100)), u) :=
    resolve_stage3 env s _ L u hstage1 hstage2 hstage3full
  refine ⟨mergeResultStore s st src tgt source,
    execute_theme_merge_ok s st src tgt source target hne hsf htf,
    hreinf, hstage1, hstage2, hstage3, ⟨u, hstage3full, huid⟩, ?_, ?_⟩
  · rw [hresolve]
    exact huid
  · rw [hresolve]
    exact ensure_alias_themes _ u.id L "system" (some (98 / 100))

/-- Witness for C4: merging "byd ev sales" (1) into "byd" (2) records the
reinforcement, and the later label "BYD EV Sales" resolves to topic 2 through
the exact reinforcement match without creating a topic. -/
theorem merge_reinforcement_resolves_label_witness :
    ∃ st2, execute_theme_merge defaultSettings c4Store 1 2
        = .ok (st2, countNarratives c4Store 1)
      ∧ st2.reinforcements = c4Store.reinforcements
          ++ [⟨"byd ev sales", none, 2⟩]
      ∧ findThemeByCanonical st2 (canonicalize_label "BYD EV Sales") = none
      ∧ _find_theme_by_alias st2 (canonicalize_label "BYD EV Sales") = none
      ∧ reinforcementExactTarget st2 (canonicalize_label "BYD EV Sales")
          = some 2
      ∧ (∃ u, _find_theme_by_merge_reinforcement noEmbedEnv defaultSettings st2
          "BYD EV Sales" = some u ∧ u.id = 2)
      ∧ (resolve_theme noEmbedEnv defaultSettings st2 "BYD EV Sales").2.id = 2
      ∧ (resolve_theme noEmbedEnv defaultSettings st2 "BYD EV Sales").1.themes
          = st2.themes :=
  merge_reinforcement_resolves_label noEmbedEnv defaultSettings c4Store 1 2
    ⟨1, "byd ev sales", none⟩ ⟨2, "byd", none⟩ "BYD EV Sales"
    rfl (by decide) rfl rfl (by decide) (by decide)
    (fun a ha => absurd ha (List.not_mem_nil a)) (by decide)
